import Mathlib

/-!
Verification of the keyword-extraction pipeline of the JS_crawl repository.

This file shallowly embeds the core pipeline:
  * `src/aeo-api/app/extract.py` (candidate generation, scoring, validation,
    theme bucketing, result assembly), and
  * `src/python-api/app/utils.py` (prominence boost, intent inference,
    Jaccard similarity, parent-keyword selection),
and proves/refutes the frozen specification claims about it.

Modelling conventions:
  * Python floats are modelled as exact rationals (`ℚ`); `round(x, n)` is
    modelled as exact round-half-to-even at `n` decimal digits.
  * The spaCy-based tokenizer `tokenize_phrase` depends on an external
    linguistic model; it is abstracted as an explicit function parameter
    `tok : String → List String`, as the spec itself recommends (§9).
  * `freq ** 0.8` (a real-valued power) is abstracted as an explicit
    parameter `pw : Nat → ℚ`; theorems that need facts about it (e.g.
    `1 ≤ pw f` for `1 ≤ f`, true of the real function) take them as
    hypotheses.
  * Python's `list(set(...))` enumerates a hash set in an order that is not
    a function of the inputs across interpreter processes; the enumeration
    is abstracted as a parameter `dedup : List String → List String`
    constrained by `dedup_spec` (no duplicates, same membership).
  * `langdetect` is external; it is abstracted as a parameter
    `detect : String → String`.
  * Python `str.split()` is modelled for space-separated text
    (`wordsOf`), and `str.lower()`/`isalpha` via `Char.toLower`/
    `Char.isAlpha` (ASCII-faithful).
-/

namespace JSCrawl

/-! ### Generic string / list / rounding helpers -/

/-- Python `s.lower()` (character-wise, kernel-computable). -/
def lowerStr (s : String) : String := String.mk (s.data.map Char.toLower)

/-- Python `s[:n]` (first `n` characters). -/
def takeChars (n : Nat) (s : String) : String := String.mk (s.data.take n)

/-- Auxiliary for `wordsOf`: split on runs of spaces, accumulating the
current word reversed. -/
def splitSpacesAux : List Char → List Char → List String
  | [], acc => if acc.isEmpty then [] else [String.mk acc.reverse]
  | c :: cs, acc =>
    if c = ' ' then
      if acc.isEmpty then splitSpacesAux cs []
      else String.mk acc.reverse :: splitSpacesAux cs []
    else splitSpacesAux cs (c :: acc)

/-- Python `s.split()` restricted to spaces: the non-empty space-separated
words of `s`. -/
def wordsOf (s : String) : List String := splitSpacesAux s.data []

/-- Auxiliary substring test on character lists. -/
def strContainsAux : List Char → List Char → Bool
  | _, [] => true
  | [], _ :: _ => false
  | h :: t, p => List.isPrefixOf p (h :: t) || strContainsAux t p

/-- Python `pat in hay` (substring containment). -/
def strContains (hay pat : String) : Bool :=
  strContainsAux hay.data pat.data

/-- Fuelled auxiliary for non-overlapping substring counting. -/
def countOccAux (p : List Char) : Nat → List Char → Nat
  | 0, _ => 0
  | _ + 1, [] => 0
  | fuel + 1, h :: t =>
    if List.isPrefixOf p (h :: t) then
      1 + countOccAux p fuel (List.drop (p.length - 1) t)
    else
      countOccAux p fuel t

/-- Python `hay.count(pat)`: number of non-overlapping occurrences of `pat`
in `hay`, scanning left to right (0 for the empty pattern, which the
pipeline never passes: candidates have length ≥ 3). -/
def countSubstr (hay pat : String) : Nat :=
  if pat.data.isEmpty then 0 else countOccAux pat.data hay.data.length hay.data

/-- Auxiliary for `counterKeys`: keep the first occurrence of each element,
skipping elements already seen. -/
def counterKeysAux : List String → List String → List String
  | _, [] => []
  | seen, c :: cs =>
    if c ∈ seen then counterKeysAux seen cs
    else c :: counterKeysAux (c :: seen) cs

/-- The key sequence of a Python dict/`Counter` populated by iterating a
list: each distinct element once, in order of first occurrence. -/
def counterKeys (cs : List String) : List String :=
  counterKeysAux [] cs

/-- The `maxByFold f x xs` is Python `max([x] + xs, key=f)`: the first element
attaining the maximal key. -/
def maxByFold {α : Type} (f : α → ℚ) (x : α) (xs : List α) : α :=
  xs.foldl (fun b a => if f b < f a then a else b) x

/-- Python `max(l, key=f)` as an `Option` (empty list → `none`). -/
def maxBy {α : Type} (f : α → ℚ) : List α → Option α
  | [] => none
  | x :: xs => some (maxByFold f x xs)

/-- Round-half-to-even to an integer (Python `round`'s tie rule, on the
exact rational value). -/
def rhe (q : ℚ) : ℤ :=
  if q - ⌊q⌋ < 1/2 then ⌊q⌋
  else if 1/2 < q - ⌊q⌋ then ⌊q⌋ + 1
  else if ⌊q⌋ % 2 = 0 then ⌊q⌋ else ⌊q⌋ + 1

/-- Python `round(q, 2)` on the exact rational value. -/
def round2 (q : ℚ) : ℚ := (rhe (q * 100) : ℚ) / 100

/-- Python `round(q, 3)` on the exact rational value. -/
def round3 (q : ℚ) : ℚ := (rhe (q * 1000) : ℚ) / 1000

/-! ### Data model

The loosely-typed keyword dicts of the source are embedded as records. -/

/-- A scored keyword record, as produced by `score_keywords`:
`{"text": ..., "score": ..., "freq": ..., "density": ..., "boost": ...,
"semantic_score": ...}`. -/
structure KW where
  text : String
  score : ℚ
  freq : Nat
  density : ℚ
  boost : ℚ
  semantic_score : ℚ
deriving DecidableEq, Repr

/-- The parent-keyword information threaded into tree assembly
(`{"text": ..., "score": ..., "freq": ...}`). -/
structure PInfo where
  text : String
  score : ℚ
  freq : Nat
deriving DecidableEq, Repr

/-- The `utils.TreeNode`: a node of the keyword hierarchy (the serialized
`to_dict` shape: text, score, children). -/
inductive TNode where
  | mk (text : String) (score : ℚ) (children : List TNode)

/-- The text of a tree node. -/
def TNode.text : TNode → String
  | .mk t _ _ => t

/-- The score of a tree node. -/
def TNode.score : TNode → ℚ
  | .mk _ s _ => s

/-- The children of a tree node. -/
def TNode.children : TNode → List TNode
  | .mk _ _ cs => cs

/-- An entry of the output `keywords` list (and of `parent`):
`{"text", "score", "freq", "intent"}`. -/
structure KwOut where
  text : String
  score : ℚ
  freq : Nat
  intent : String
deriving DecidableEq, Repr

/-- An entry of the output `children` list:
`{"text", "score", "freq", "intent", "similarity"}`. -/
structure ChildOut where
  text : String
  score : ℚ
  freq : Nat
  intent : String
  similarity : ℚ
deriving DecidableEq, Repr

/-- The `debug` block of the result. -/
structure DebugInfo where
  total_candidates : Nat
  scored_keywords : Nat
  validated_keywords : Nat
  top_keywords_count : Nat
  parent_selected : Option String
  parent_score : Option ℚ
deriving DecidableEq, Repr

/-- The content signals handed to the core by the (external) HTML signal
extractor: title, meta description, OG title/description, headings as
(level, text) pairs, and URL-derived tokens. -/
structure Signals where
  title : String
  meta_desc : String
  og_title : String
  og_desc : String
  headings : List (String × String)
  url_tokens : List String

/-- The result of `extract_keywords_from_html`. -/
structure ExtractResult where
  url : String
  language : String
  parent : Option KwOut
  children : List ChildOut
  tree : TNode
  keywords : List KwOut
  debug : DebugInfo

/-! ### Keyword rule dictionaries (`utils.py`) -/

/-- The `utils.TEMPORAL_MONTHS`. -/
def TEMPORAL_MONTHS : List String :=
  ["january", "february", "march", "april", "may", "june", "july", "august",
   "september", "october", "november", "december",
   "jan", "feb", "mar", "apr", "jun", "jul", "aug", "sep", "sept", "oct",
   "nov", "dec"]

/-- The `utils.TEMPORAL_DAYS`. -/
def TEMPORAL_DAYS : List String :=
  ["monday", "tuesday", "wednesday", "thursday", "friday", "saturday",
   "sunday", "mon", "tue", "wed", "thu", "fri", "sat", "sun"]

/-- The `utils.SECTION_TERMS` (boilerplate site sections). -/
def SECTION_TERMS : List String :=
  ["home", "homepage", "blog", "news", "press", "release", "press-release",
   "events", "all-events", "careers", "career", "jobs", "about", "about-us",
   "team", "contact", "contact-us", "support", "help", "faq", "esg", "csr",
   "investors", "privacy", "policy", "terms", "conditions",
   "terms-and-conditions", "cookies", "cookie", "sitemap", "login", "signup",
   "account", "profile", "settings", "newsletter", "subscribe", "archives",
   "category", "tag", "author", "search", "404"]

/-- The `utils.GENERIC_BASE_TERMS` (the module-level set actually consulted by
`is_generic_base`; the smaller set shadowed inside
`choose_parent_keyword` is dead code). -/
def GENERIC_BASE_TERMS : List String :=
  ["real", "estate", "service", "services", "solution", "solutions",
   "platform", "app", "apps", "software", "tool", "tools", "news", "article",
   "blog", "post", "posts", "update", "latest", "info", "information",
   "guide", "report", "press", "release", "case", "study", "case-study",
   "india", "global", "international", "industry", "company", "companies",
   "product", "products", "feature", "features", "page", "pages", "download",
   "center", "team", "career", "policy", "term", "terms", "condition",
   "conditions", "overview", "summary", "faq", "qna", "q&a", "help",
   "support"]

/-- The `utils.ENERGY_TOPICAL_TOKENS`. -/
def ENERGY_TOPICAL_TOKENS : List String :=
  ["solar", "panel", "panels", "inverter", "renewable", "energy",
   "efficiency", "battery", "storage", "rooftop", "pv", "photovoltaic",
   "subsidies", "subsidy", "decarbonization", "surya", "yojana", "grid",
   "offgrid", "on-grid", "net-metering"]

/-! ### `utils.py` functions -/

/-- The `utils.jaccard_similarity` on token sets. -/
def jaccard_similarity (a b : Finset String) : ℚ :=
  if a = ∅ ∨ b = ∅ then 0
  else ((a ∩ b).card : ℚ) / ((a ∪ b).card : ℚ)

/-- The `utils.in_text`: case-insensitive substring containment. -/
def in_text (needle haystack : String) : Bool :=
  strContains (lowerStr haystack) (lowerStr needle)

/-- The `utils.is_temporal_token`. -/
def is_temporal_token (t : String) : Bool :=
  TEMPORAL_MONTHS.contains t || TEMPORAL_DAYS.contains t

/-- The `utils.calculate_prominence_boost`: multiplicative ×3.0 / ×1.8 / ×1.5
boosts for title / H1-H2 / URL-token hits. -/
def calculate_prominence_boost (keyword title h1_h2_text url_tokens : String) : ℚ :=
  1 * (if in_text keyword title then 3 else 1)
    * (if in_text keyword h1_h2_text then 9/5 else 1)
    * (if in_text keyword url_tokens then 3/2 else 1)

/-- The transactional cue words of `utils.infer_intent`. -/
def TRANSACTIONAL_WORDS : List String :=
  ["buy", "price", "deal", "coupon", "order", "best", "cheap", "shop", "store"]

/-- The informational cue words of `utils.infer_intent`. -/
def INFORMATIONAL_WORDS : List String :=
  ["how", "what", "guide", "tutorial", "vs", "review", "learn", "tips",
   "why", "when"]

/-- The navigational cue words of `utils.infer_intent`. -/
def NAVIGATIONAL_WORDS : List String :=
  ["login", "signup", "brand", "home", "contact", "about"]

/-- The `utils.infer_intent`: first matching cue category in the order
transactional, informational, navigational; default informational. -/
def infer_intent (keyword : String) : String :=
  let kw := lowerStr keyword
  if TRANSACTIONAL_WORDS.any (fun w => strContains kw w) then "transactional"
  else if INFORMATIONAL_WORDS.any (fun w => strContains kw w) then "informational"
  else if NAVIGATIONAL_WORDS.any (fun w => strContains kw w) then "navigational"
  else "informational"

/-- The common function words used by the semantic-quality and candidate
filters (identical set in `extract.calculate_semantic_quality`,
`extract.generate_candidates` and
`utils.calculate_semantic_quality_for_parent`). -/
def COMMON_WORDS : List String :=
  ["the", "a", "an", "and", "or", "but", "in", "on", "at", "to", "for",
   "of", "with", "by"]

/-- The `extract.calculate_semantic_quality`'s high-value indicator set. -/
def HIGH_VALUE_INDICATORS : List String :=
  ["best", "top", "guide", "review", "comparison", "vs", "how to", "what is",
   "benefits", "features", "advantages", "disadvantages", "pros", "cons",
   "tutorial", "tips", "tricks", "secrets", "methods", "techniques",
   "strategies", "cost", "price", "buy", "purchase", "order", "deal",
   "discount", "sale", "free", "premium", "professional", "expert",
   "advanced", "beginner", "starter"]

/-- The `extract.calculate_semantic_quality`'s low-value indicator set. -/
def LOW_VALUE_INDICATORS : List String :=
  ["click", "here", "more", "read", "learn", "find", "get", "start", "begin",
   "page", "site", "website", "web", "online", "internet", "www", "http",
   "html", "css", "javascript", "php", "asp", "net", "com", "org", "edu"]

/-- The high-intent phrase patterns of `extract.calculate_semantic_quality`. -/
def SEMANTIC_PATTERNS : List String :=
  ["how to", "what is", "best way", "top 10", "vs"]

/-- The `extract.calculate_semantic_quality`: per-word ×1.2 / ×0.9 indicator
multipliers, ×1.2 pattern bonus, ×0.8 penalty when more than half the words
are common function words, clamped to [0.1, 2.0]. -/
def calculate_semantic_quality (keyword : String) : ℚ :=
  let keyword_lower := lowerStr keyword
  let words := wordsOf keyword_lower
  let q1 : ℚ := words.foldl
    (fun q w =>
      if HIGH_VALUE_INDICATORS.contains w then q * (6/5)
      else if LOW_VALUE_INDICATORS.contains w then q * (9/10)
      else q) 1
  let q2 := if SEMANTIC_PATTERNS.any (fun p => strContains keyword_lower p)
    then q1 * (6/5) else q1
  let common_count := (words.filter (fun w => COMMON_WORDS.contains w)).length
  let q3 := if 2 * common_count > words.length then q2 * (4/5) else q2
  max (1/10) (min 2 q3)

/-- The `utils.calculate_semantic_quality_for_parent`'s parent-indicator set. -/
def PARENT_INDICATORS : List String :=
  ["best", "top", "guide", "review", "comparison", "vs", "how to", "what is",
   "benefits", "features", "advantages", "tutorial", "tips", "methods",
   "cost", "price", "buy", "purchase", "deal", "discount", "sale", "free",
   "premium", "professional", "expert", "advanced", "beginner"]

/-- The question patterns of `utils.calculate_semantic_quality_for_parent`. -/
def QUESTION_PATTERNS : List String :=
  ["how to", "what is", "why", "when", "where", "which"]

/-- The comparison patterns of
`utils.calculate_semantic_quality_for_parent`. -/
def COMPARISON_PATTERNS : List String :=
  ["vs", "versus", "comparison", "compare", "best"]

/-- The `utils.calculate_semantic_quality_for_parent`: ×1.4 per parent-indicator
word, ×1.3 question-pattern bonus, ×1.2 comparison-pattern bonus, ×0.8
penalty when more than 40% of the words are common function words, clamped
to [0.5, 2.0]. -/
def calculate_semantic_quality_for_parent (keyword : String) : ℚ :=
  let keyword_lower := lowerStr keyword
  let words := wordsOf keyword_lower
  let q1 : ℚ := words.foldl
    (fun q w => if PARENT_INDICATORS.contains w then q * (7/5) else q) 1
  let q2 := if QUESTION_PATTERNS.any (fun p => strContains keyword_lower p)
    then q1 * (13/10) else q1
  let q3 := if COMPARISON_PATTERNS.any (fun p => strContains keyword_lower p)
    then q2 * (6/5) else q2
  let common_count := (words.filter (fun w => COMMON_WORDS.contains w)).length
  let q4 := if 5 * common_count > 2 * words.length then q3 * (4/5) else q3
  max (1/2) (min 2 q4)

/-! ### Parent selection (`utils.choose_parent_keyword`) -/

/-- The local `is_boilerplate_phrase` of `utils.choose_parent_keyword`:
some token of the phrase is a boilerplate section term. -/
def is_boilerplate_phrase (tok : String → List String) (text : String) : Bool :=
  (tok text).any (fun t => SECTION_TERMS.contains t)

/-- The local `parent_rank` of `utils.choose_parent_keyword`: the weighted
composite rank multiplied by the boilerplate, URL-boilerplate and topical
factors. -/
def parent_rank (tok : String → List String)
    (title h1_h2_text url_tokens : String) (item : KW) : ℚ :=
  let keyword := item.text
  let tokens := tok keyword
  let word_count := tokens.length
  let length_score : ℚ :=
    if word_count = 2 then 1
    else if word_count = 3 then 6/5
    else if word_count = 4 then 1
    else 7/10
  let title_hit : ℚ := if in_text keyword title then 11/5 else 0
  let h1_hit : ℚ := if in_text keyword h1_h2_text then 8/5 else 0
  let url_hit : ℚ := if in_text keyword url_tokens then 1 else 0
  let semantic_quality := calculate_semantic_quality_for_parent keyword
  let freq_score : ℚ := (min item.freq 10 : ℕ) / 10
  let density_score : ℚ := if item.density > 3 then 7/10 else 1
  let intent := infer_intent keyword
  let intent_score : ℚ :=
    if intent = "transactional" ∨ intent = "informational" then 6/5 else 9/10
  let has_temporal := tokens.any is_temporal_token
  let boilerplate_penalty : ℚ :=
    if is_boilerplate_phrase tok keyword || has_temporal then 4/5 else 1
  let topical_boost : ℚ :=
    if tokens.any (fun t => ENERGY_TOPICAL_TOKENS.contains t) then 11/10 else 1
  let url_boilerplate_penalty : ℚ :=
    if SECTION_TERMS.any (fun bt => strContains url_tokens bt) then 4/5 else 1
  (1/4 * item.score + 1/5 * title_hit + 3/20 * h1_hit + 1/10 * url_hit
      + 1/10 * length_score + 1/10 * semantic_quality + 1/20 * freq_score
      + 3/100 * density_score + 1/50 * intent_score)
    * boilerplate_penalty * url_boilerplate_penalty * topical_boost

/-- The eligibility filter of `utils.choose_parent_keyword`: at least two
tokens, not boilerplate-only, and at least one non-generic token. -/
def parent_eligible (tok : String → List String) (item : KW) : Bool :=
  let tokens := tok item.text
  if tokens.length < 2 then false
  else if is_boilerplate_phrase tok item.text
      && (tokens.filter (fun t => !SECTION_TERMS.contains t)).length = 0 then false
  else if !(tokens.any (fun t => !GENERIC_BASE_TERMS.contains t)) then false
  else true

/-- The `eligible` pool of `utils.choose_parent_keyword`. -/
def parent_eligible_pool (tok : String → List String)
    (scored_keywords : List KW) : List KW :=
  scored_keywords.filter (parent_eligible tok)

/-- The `seeded` subset of `utils.choose_parent_keyword`: eligible
candidates occurring in the title or the H1/H2 text. -/
def parent_seeded (tok : String → List String) (scored_keywords : List KW)
    (title h1_h2_text : String) : List KW :=
  (parent_eligible_pool tok scored_keywords).filter
    (fun it => in_text it.text title || in_text it.text h1_h2_text)

/-- The `pool` of `utils.choose_parent_keyword`: the seeded subset, or the
whole eligible pool when no candidate is seeded. -/
def parent_pool (tok : String → List String) (scored_keywords : List KW)
    (title h1_h2_text : String) : List KW :=
  if (parent_seeded tok scored_keywords title h1_h2_text).isEmpty then
    parent_eligible_pool tok scored_keywords
  else parent_seeded tok scored_keywords title h1_h2_text

/-- The `utils.choose_parent_keyword`: build the eligible pool, prefer
title/H1-seeded candidates, return the first rank-maximal element, with the
(defensive, unreachable) single-word fallback guard. -/
def choose_parent_keyword (tok : String → List String) (scored_keywords : List KW)
    (title h1_h2_text url_tokens : String) : Option KW :=
  if scored_keywords.isEmpty then none
  else if (parent_eligible_pool tok scored_keywords).isEmpty then none
  else
    match maxBy (parent_rank tok title h1_h2_text url_tokens)
        (parent_pool tok scored_keywords title h1_h2_text) with
    | none => none
    | some best =>
      if (tok best.text).length < 2 then
        maxBy (parent_rank tok title h1_h2_text url_tokens)
          ((parent_pool tok scored_keywords title h1_h2_text).filter
            (fun it => 2 ≤ (tok it.text).length))
      else some best

/-! ### Candidate generation (`extract.generate_candidates`) -/

/-- The exact stop phrases of `extract.generate_candidates`. -/
def STOP_PHRASES : List String :=
  ["click here", "read more", "learn more", "find out", "get started",
   "contact us", "about us", "home page", "main page", "site map",
   "privacy policy", "terms service", "cookie policy", "all rights reserved"]

/-- The low-value single words of `extract.generate_candidates`. -/
def LOW_VALUE_WORDS : List String :=
  ["page", "site", "website", "web", "online", "internet", "www", "http",
   "html", "css", "javascript", "php", "asp", "net", "com", "org", "edu",
   "click", "here", "more", "read", "learn", "find", "get", "start",
   "contact", "about", "home", "main", "map", "privacy", "terms", "cookie",
   "rights", "reserved", "copyright", "all", "some", "many", "few", "most",
   "very", "really", "quite", "rather", "pretty", "fairly", "somewhat"]

/-- Python `candidate.replace(" ", "").isalpha()`. -/
def isAlphaNoSpaces (c : String) : Bool :=
  let s := c.data.filter (fun ch => ch ≠ ' ')
  !s.isEmpty && s.all Char.isAlpha

/-- The per-candidate filter of `extract.generate_candidates` (length,
alphabetic, stop phrases, low-value single words, all-common 2+-word
phrases, ≥60%-common 3+-word phrases). -/
def keep_candidate (candidate : String) : Bool :=
  let candidate_lower := lowerStr candidate
  let nwords := (wordsOf candidate).length
  if candidate.length < 3 || candidate.length > 50 then false
  else if !isAlphaNoSpaces candidate then false
  else if STOP_PHRASES.contains candidate_lower then false
  else if nwords = 1 && LOW_VALUE_WORDS.contains candidate_lower then false
  else if 2 ≤ nwords
      && (wordsOf candidate_lower).all (fun w => COMMON_WORDS.contains w) then false
  else if 3 ≤ nwords
      && 3 * (wordsOf candidate_lower).length
        ≤ 5 * ((wordsOf candidate_lower).filter
            (fun w => COMMON_WORDS.contains w)).length then false
  else true

/-- The `extract.generate_candidates`: unigrams, bigrams and trigrams of the
token stream, deduplicated by `list(set(...))` (the set-enumeration order
is the `dedup` parameter), then filtered by `keep_candidate`. -/
def generate_candidates (tok : String → List String)
    (dedup : List String → List String) (text : String) : List String :=
  let tokens := tok text
  let unigrams := tokens
  let bigrams := (tokens.zip tokens.tail).map (fun p => p.1 ++ " " ++ p.2)
  let trigrams := (tokens.zip (tokens.tail.zip tokens.tail.tail)).map
    (fun p => p.1 ++ " " ++ p.2.1 ++ " " ++ p.2.2)
  let candidates := dedup (unigrams ++ bigrams ++ trigrams)
  candidates.filter keep_candidate

/-- A valid model of Python `list(set(...))`: some duplicate-free
enumeration with the same membership. -/
def dedup_spec (dedup : List String → List String) : Prop :=
  ∀ l : List String, (dedup l).Nodup ∧ ∀ x, x ∈ dedup l ↔ x ∈ l

/-! ### Scoring (`extract.score_keywords`) -/

/-- The word-count length bonus of `extract.score_keywords`. -/
def length_bonus (word_count : Nat) : ℚ :=
  if word_count = 1 then 1/2
  else if word_count = 2 then 1
  else if word_count = 3 then 6/5
  else if word_count = 4 then 1
  else 7/10

/-- The density penalty of `extract.score_keywords`: 1.0 up to 2% density,
then `1.0 - (density - 0.02) * 5`. -/
def density_penalty (keyword_density : ℚ) : ℚ :=
  if keyword_density > 1/50 then 1 - (keyword_density - 1/50) * 5 else 1

/-- The minimum-frequency threshold `max(1, int(text_length * 0.0005))` of
`extract.score_keywords`. -/
def min_freq_threshold (text_length : Nat) : Nat :=
  max 1 (text_length * 5 / 10000)

/-- The loop body of `extract.score_keywords` for one `(candidate, freq)`
pair: frequency threshold, density computation and 5% rejection, prominence
boost, length bonus, density penalty, semantic quality, final score and the
0.5 floor. -/
def score_entry (pw : Nat → ℚ) (text_length : Nat)
    (title h1_h2_text url_joined : String) (cf : String × Nat) : Option KW :=
  let candidate := cf.1
  let freq := cf.2
  if freq < min_freq_threshold text_length then none
  else
    let keyword_density : ℚ :=
      ((freq * (wordsOf candidate).length : ℕ) : ℚ) / (text_length : ℚ)
    if keyword_density > 1/20 then none
    else
      let boost := calculate_prominence_boost candidate title h1_h2_text url_joined
      let word_count := (wordsOf candidate).length
      let base_score := pw freq
      let final_score := base_score * boost * length_bonus word_count
        * density_penalty keyword_density * calculate_semantic_quality candidate
      if 1/2 ≤ final_score then
        some { text := candidate, score := round2 final_score, freq := freq,
               density := round2 (keyword_density * 100),
               boost := round2 boost,
               semantic_score := round2 (calculate_semantic_quality candidate) }
      else none

/-- The descending-score order used by the pipeline's sorts. -/
def byScoreDesc (a b : KW) : Prop := b.score ≤ a.score

instance : DecidableRel byScoreDesc :=
  fun a b => inferInstanceAs (Decidable (b.score ≤ a.score))

instance : IsTotal KW byScoreDesc := ⟨fun a b => le_total b.score a.score⟩

instance : IsTrans KW byScoreDesc := ⟨fun _ _ _ hab hbc => le_trans hbc hab⟩

/-- Stable descending sort by score (Python `sort(key=score, reverse=True)`). -/
def sort_by_score_desc (l : List KW) : List KW :=
  List.insertionSort byScoreDesc l

/-- The `extract.score_keywords`: count non-overlapping occurrences of each
candidate in the lowercased text (`Counter` keyed in first-occurrence
order), score each sufficiently frequent candidate, and sort by score
descending. -/
def score_keywords (pw : Nat → ℚ) (candidates : List String)
    (text title h1_h2_text : String) (url_tokens : List String) : List KW :=
  let text_lower := lowerStr text
  let text_length := (wordsOf text_lower).length
  let frequencies := (counterKeys candidates).filterMap
    (fun c => let n := countSubstr text_lower c
              if 0 < n then some (c, n) else none)
  let url_joined := String.intercalate " " url_tokens
  sort_by_score_desc
    (frequencies.filterMap (score_entry pw text_length title h1_h2_text url_joined))

/-! ### Quality validation (`extract.validate_keyword_quality`) -/

/-- The generic phrase blacklist of `extract.validate_keyword_quality`. -/
def GENERIC_PATTERNS : List String :=
  ["click here", "read more", "learn more", "find out", "get started",
   "contact us", "about us", "home page", "main page", "site map",
   "privacy policy", "terms service", "cookie policy"]

/-- The common-single-word blacklist of `extract.validate_keyword_quality`. -/
def COMMON_SINGLE_WORDS : List String :=
  ["page", "site", "website", "web", "online", "internet", "www",
   "click", "here", "more", "read", "learn", "find", "get", "start",
   "contact", "about", "home", "main", "map", "privacy", "terms"]

/-- The per-keyword keep test of `extract.validate_keyword_quality` (the
`density` key is always present on pipeline records). -/
def valid_check (kw : KW) : Bool :=
  if kw.score < 3/2 then false
  else if kw.freq < 2 then false
  else if kw.density > 5 then false
  else if GENERIC_PATTERNS.any (fun p => strContains (lowerStr kw.text) p) then false
  else if (wordsOf kw.text).length = 1
      && COMMON_SINGLE_WORDS.contains (lowerStr kw.text) then false
  else true

/-- The `extract.validate_keyword_quality`: keep, in order, the keywords that
pass `valid_check`. -/
def validate_keyword_quality (keywords : List KW) : List KW :=
  keywords.filter valid_check

/-! ### Theme bucketing (`extract.create_sub_parents`) -/

/-- The ordered theme table of `extract.create_sub_parents`. -/
def THEMES : List (String × List String) :=
  [("ai_related", ["ai", "chatbot", "automation", "intelligence", "machine"]),
   ("real_estate", ["real", "estate", "property", "housing", "investment"]),
   ("social_media", ["facebook", "whatsapp", "social", "messaging", "chat"]),
   ("business", ["business", "industry", "service", "solution", "client"]),
   ("technology", ["technology", "tech", "digital", "online", "platform"])]

/-- Does a keyword text contain any trigger substring of a theme? -/
def theme_match (trigs : List String) (kwText : String) : Bool :=
  trigs.any (fun w => strContains (lowerStr kwText) w)

/-- One theme pass of `extract.create_sub_parents`: collect, in order, the
not-yet-used keywords matching a trigger, marking each as used. -/
def collect_theme (trigs : List String) :
    List KW → List String → List KW × List String
  | [], used => ([], used)
  | kw :: rest, used =>
    if used.contains kw.text then collect_theme trigs rest used
    else if theme_match trigs kw.text then
      let r := collect_theme trigs rest (kw.text :: used)
      (kw :: r.1, r.2)
    else collect_theme trigs rest used

/-- The theme loop of `extract.create_sub_parents`: one sub-parent per
non-empty theme group (highest-scoring member on top, rest as leaf
children), threading the used set. -/
def themes_fold (sorted_keywords : List KW) :
    List (String × List String) → List String → List TNode × List String
  | [], used => ([], used)
  | th :: rest, used =>
    let c := collect_theme th.2 sorted_keywords used
    let r := themes_fold sorted_keywords rest c.2
    match c.1 with
    | [] => r
    | h :: t =>
      (TNode.mk h.text h.score (t.map (fun kw => TNode.mk kw.text kw.score []))
        :: r.1, r.2)

/-- The `extract.create_sub_parents`: sort by score descending, bucket by the
fixed theme table, and append the leftover keywords as singleton
sub-parents. (The `parent_text` argument is unused in the source as well.) -/
def create_sub_parents (keywords : List KW) (parent_text : String) : List TNode :=
  if keywords.isEmpty then []
  else
    let sorted_keywords := sort_by_score_desc keywords
    let fr := themes_fold sorted_keywords THEMES []
    fr.1 ++ (sorted_keywords.filter (fun kw => !fr.2.contains kw.text)).map
      (fun kw => TNode.mk kw.text kw.score [])

/-! ### The pipeline (`extract.extract_keywords_from_html`) -/

/-- The shared tail of `extract.extract_keywords_from_html` once a parent
(selected or fallback) is fixed: build the URL-rooted tree, the sub-parent
`children` list with Jaccard similarities, the flat `keywords` list and the
debug block. -/
def build_result (tok : String → List String) (url final_url language : String)
    (nCand nScored nValid : Nat) (top_keywords : List KW) (parent : PInfo)
    (other_keywords : List KW) : ExtractResult :=
  let sub_parents := create_sub_parents other_keywords parent.text
  let parent_node := TNode.mk parent.text parent.score sub_parents
  let url_root := TNode.mk url 0 [parent_node]
  let parent_tokens := (tok parent.text).toFinset
  let children := sub_parents.map (fun sp =>
    { text := sp.text, score := sp.score, freq := 0,
      intent := infer_intent sp.text,
      similarity := round3 (jaccard_similarity parent_tokens (tok sp.text).toFinset)
      : ChildOut })
  let keywords := top_keywords.map (fun kw =>
    { text := kw.text, score := kw.score, freq := kw.freq,
      intent := infer_intent kw.text : KwOut })
  { url := if final_url = "" then url else final_url
    language := language
    parent := some { text := parent.text, score := parent.score,
                     freq := parent.freq, intent := infer_intent parent.text }
    children := children
    tree := url_root
    keywords := keywords
    debug := { total_candidates := nCand, scored_keywords := nScored,
               validated_keywords := nValid,
               top_keywords_count := top_keywords.length,
               parent_selected := some parent.text,
               parent_score := some parent.score } }

/-- The combined `all_text` of `extract.extract_keywords_from_html`:
title, meta description, OG title/description, heading texts and the
readable text, space-joined. -/
def all_text_of (sig : Signals) (readable_text : String) : String :=
  String.intercalate " "
    [sig.title, sig.meta_desc, sig.og_title, sig.og_desc,
     String.intercalate " " (sig.headings.map Prod.snd), readable_text]

/-- The `h1_h2_text` of `extract.extract_keywords_from_html`: the joined
texts of the H1/H2 headings. -/
def h1_h2_of (sig : Signals) : String :=
  String.intercalate " "
    ((sig.headings.filter (fun h => h.1 = "h1" || h.1 = "h2")).map Prod.snd)

/-- The `candidates` of `extract.extract_keywords_from_html`. -/
def candidates_of (tok : String → List String)
    (dedup : List String → List String) (sig : Signals)
    (readable_text : String) : List String :=
  generate_candidates tok dedup (all_text_of sig readable_text)

/-- The `scored` list of `extract.extract_keywords_from_html`. -/
def scored_of (tok : String → List String) (pw : Nat → ℚ)
    (dedup : List String → List String) (sig : Signals)
    (readable_text : String) : List KW :=
  score_keywords pw (candidates_of tok dedup sig readable_text)
    (all_text_of sig readable_text) sig.title (h1_h2_of sig) sig.url_tokens

/-- The `top_keywords` of `extract.extract_keywords_from_html`: the first
30 validated keywords. -/
def top_of (tok : String → List String) (pw : Nat → ℚ)
    (dedup : List String → List String) (sig : Signals)
    (readable_text : String) : List KW :=
  (validate_keyword_quality (scored_of tok pw dedup sig readable_text)).take 30

/-- The detected language of `extract.preprocess_text`: the caller's guess
when non-empty, else the (external) detector on the first 1000 characters. -/
def language_of (detect : String → String) (readable_text lang_guess : String) :
    String :=
  if lang_guess = "" then detect (takeChars 1000 readable_text) else lang_guess

/-- The `extract.extract_keywords_from_html`, downstream of the external
collaborators (HTML signal extraction, readable-text extraction and
language detection are inputs): assemble the combined text, generate and
score candidates, validate, take the top 30, choose a parent (falling back
to the top keyword), and assemble the result. -/
def extract_keywords_from_html (tok : String → List String) (pw : Nat → ℚ)
    (dedup : List String → List String) (detect : String → String)
    (sig : Signals) (readable_text : String)
    (url final_url lang_guess : String) : ExtractResult :=
  match choose_parent_keyword tok (top_of tok pw dedup sig readable_text)
      sig.title (h1_h2_of sig) (String.intercalate " " sig.url_tokens) with
  | none =>
    match top_of tok pw dedup sig readable_text with
    | [] =>
      { url := if final_url = "" then url else final_url
        language := language_of detect readable_text lang_guess
        parent := none
        children := []
        tree := TNode.mk url 0 []
        keywords := []
        debug := { total_candidates := (candidates_of tok dedup sig readable_text).length,
                   scored_keywords := (scored_of tok pw dedup sig readable_text).length,
                   validated_keywords :=
                     (validate_keyword_quality (scored_of tok pw dedup sig readable_text)).length,
                   top_keywords_count := 0,
                   parent_selected := none, parent_score := none } }
    | t0 :: rest =>
      build_result tok url final_url (language_of detect readable_text lang_guess)
        (candidates_of tok dedup sig readable_text).length
        (scored_of tok pw dedup sig readable_text).length
        (validate_keyword_quality (scored_of tok pw dedup sig readable_text)).length
        (t0 :: rest) ⟨t0.text, t0.score, t0.freq⟩ rest
  | some p =>
    build_result tok url final_url (language_of detect readable_text lang_guess)
      (candidates_of tok dedup sig readable_text).length
      (scored_of tok pw dedup sig readable_text).length
      (validate_keyword_quality (scored_of tok pw dedup sig readable_text)).length
      (top_of tok pw dedup sig readable_text) ⟨p.text, p.score, p.freq⟩
      ((top_of tok pw dedup sig readable_text).filter (fun kw => kw.text ≠ p.text))

/-! ### Concrete instantiations of the abstract parameters

Used by witnesses and counterexamples: a simple tokenizer satisfying the
Tokenizer contract (lowercased alphabetic tokens of length > 1), a rational
table standing for `n ** 0.8`, a concrete set-enumeration, and a constant
language detector. -/

/-- A concrete tokenizer: lowercased space-separated words that are
alphabetic and longer than one character. -/
def simpleTok (s : String) : List String :=
  (wordsOf (lowerStr s)).filter (fun w => 2 ≤ w.length && w.data.all Char.isAlpha)

/-- A concrete stand-in for `n ** 0.8` (exact at 0 and 1, two-decimal
approximations above, identity beyond 5; monotone and ≥ 1 on positives). -/
def pw08 : Nat → ℚ
  | 0 => 0
  | 1 => 1
  | 2 => 174/100
  | 3 => 241/100
  | 4 => 303/100
  | 5 => 362/100
  | n + 6 => (n + 6 : ℚ)

/-- A concrete candidate-set enumeration. -/
def dedupD : List String → List String := List.dedup

/-- A reversed candidate-set enumeration: an equally valid model of
`list(set(...))` under a different hash seed. -/
def dedupR : List String → List String := fun l => (List.dedup l).reverse

/-- A constant language detector. -/
def detectEn : String → String := fun _ => "en"

/-- A concrete multi-token keyword record for witnesses. -/
def wkw : KW := ⟨"best solar panels", 2, 3, 1, 1, 1⟩

/-- The Quality Validator keep-condition exactly as the claim phrases it:
score at least 1.5, frequency at least 2, density at most 5.0, no
generic-phrase blacklist entry as a case-insensitive substring, and a
single word must not be in the common-single-word blacklist. -/
def claim_valid (kw : KW) : Prop :=
  3/2 ≤ kw.score ∧ 2 ≤ kw.freq ∧ kw.density ≤ 5
  ∧ (∀ p ∈ GENERIC_PATTERNS, strContains (lowerStr kw.text) p = false)
  ∧ ((wordsOf kw.text).length = 1 → lowerStr kw.text ∉ COMMON_SINGLE_WORDS)

instance : DecidablePred claim_valid := fun kw => by
  unfold claim_valid
  infer_instance

/-- Signals of the symmetric two-keyword scenario: title `alpha beta`. -/
def c9Sig : Signals := ⟨"alpha beta", "", "", "", [], []⟩

/-- Body of the symmetric two-keyword scenario: `alpha` and `beta` once
each (frequency 2 with the title), separated by 36 distinct fillers. -/
def c9Body : String :=
  "alpha aa ab ac ad ae af ag ah aj ak al am an ao ap aq ar beta at au av aw ax ay az ba bb bc bd be bf bg bh bi bj bk bl"

def cexSig : Signals := ⟨"solar", "", "", "", [], []⟩

/-- Body text of the degraded-parent scenario: one more `solar` occurrence
plus 38 distinct filler words (so that `solar` has frequency 2 and density
exactly 5%, and every bigram/trigram is infrequent or too dense). -/
def cexBody : String :=
  "solar aa ab ac ad ae af ag ah ai aj ak al am an ao ap aq ar as at au av aw ax ay az ba bb bc bd be bf bg bh bi bj bk bl"

/-- A 20-word text for the C3 witness (density of `alpha` exactly 5%). -/
def c3Text : String :=
  "alpha aa ab ac ad ae af ag ah aj ak al am an ao ap aq ar as at"

mutual

/-- All node texts of a tree (the node itself and its descendants). -/
def treeTexts : TNode → List String
  | .mk t _ cs => t :: treeTextsList cs

/-- All node texts of a forest. -/
def treeTextsList : List TNode → List String
  | [] => []
  | c :: cs => treeTexts c ++ treeTextsList cs

end

/-- The `dedupD` is a valid `list(set(...))` model. -/
theorem dedupD_spec : dedup_spec dedupD :=
  fun l => ⟨List.nodup_dedup l, fun _ => List.mem_dedup⟩

/-- The `dedupR` is a valid `list(set(...))` model. -/
theorem dedupR_spec : dedup_spec dedupR := by
  intro l
  constructor
  · exact (List.nodup_reverse).mpr (List.nodup_dedup l)
  · intro x
    rw [dedupR, List.mem_reverse]
    exact List.mem_dedup

/-! ### Supporting lemmas: rounding -/

theorem rhe_ge (q : ℚ) : q - 1/2 ≤ (rhe q : ℚ) := by
  have hf : (⌊q⌋ : ℚ) ≤ q := Int.floor_le q
  have hf2 : q < ⌊q⌋ + 1 := Int.lt_floor_add_one q
  rw [rhe]
  split_ifs with h1 h2 h3 <;> push_cast <;> linarith

theorem rhe_le (q : ℚ) : (rhe q : ℚ) ≤ q + 1/2 := by
  have hf : (⌊q⌋ : ℚ) ≤ q := Int.floor_le q
  have hf2 : q < ⌊q⌋ + 1 := Int.lt_floor_add_one q
  rw [rhe]
  split_ifs with h1 h2 h3 <;> push_cast <;> linarith

theorem rhe_floor_le (q : ℚ) : ⌊q⌋ ≤ rhe q := by
  rw [rhe]
  split_ifs <;> omega

theorem round2_ge (q : ℚ) : q - 1/200 ≤ round2 q := by
  have h := rhe_ge (q * 100)
  rw [round2]
  linarith

theorem round2_le (q : ℚ) : round2 q ≤ q + 1/200 := by
  have h := rhe_le (q * 100)
  rw [round2]
  linarith

/-- Rounding to two decimals preserves the 0.5 score floor. -/
theorem round2_ge_half {q : ℚ} (h : 1/2 ≤ q) : 1/2 ≤ round2 q := by
  have h50 : (50 : ℤ) ≤ ⌊q * 100⌋ := by
    rw [Int.le_floor]
    push_cast
    linarith
  have h2 : ((50 : ℤ) : ℚ) ≤ (rhe (q * 100) : ℚ) :=
    Int.cast_le.mpr (le_trans h50 (rhe_floor_le _))
  push_cast at h2
  rw [round2]
  linarith

/-- Rounding to two decimals preserves the 1.5 validator floor. -/
theorem round2_ge_threehalves {q : ℚ} (h : 3/2 ≤ q) : 3/2 ≤ round2 q := by
  have h150 : (150 : ℤ) ≤ ⌊q * 100⌋ := by
    rw [Int.le_floor]
    push_cast
    linarith
  have h2 : ((150 : ℤ) : ℚ) ≤ (rhe (q * 100) : ℚ) :=
    Int.cast_le.mpr (le_trans h150 (rhe_floor_le _))
  push_cast at h2
  rw [round2]
  linarith

/-! ### Supporting lemmas: `counterKeys` -/

theorem counterKeysAux_nodup (cs : List String) :
    ∀ seen, (counterKeysAux seen cs).Nodup ∧ ∀ x ∈ counterKeysAux seen cs, x ∉ seen := by
  induction cs with
  | nil => intro seen; simp [counterKeysAux]
  | cons c cs ih =>
    intro seen
    rw [counterKeysAux]
    split_ifs with hc
    · refine ⟨(ih seen).1, fun x hx => (ih seen).2 x hx⟩
    · refine ⟨List.nodup_cons.mpr ⟨fun hmem => ?_, (ih (c :: seen)).1⟩, ?_⟩
      · exact ((ih (c :: seen)).2 c hmem) (List.mem_cons_self c seen)
      · intro x hx
        rcases List.mem_cons.mp hx with rfl | hx'
        · exact hc
        · intro hseen
          exact (ih (c :: seen)).2 x hx' (List.mem_cons_of_mem c hseen)

theorem counterKeys_nodup (cs : List String) : (counterKeys cs).Nodup :=
  (counterKeysAux_nodup cs []).1

theorem counterKeysAux_eq_self (cs : List String) :
    ∀ seen, cs.Nodup → (∀ x ∈ cs, x ∉ seen) → counterKeysAux seen cs = cs := by
  induction cs with
  | nil => intro seen _ _; rfl
  | cons c cs ih =>
    intro seen hnd hdisj
    rw [counterKeysAux]
    rw [if_neg (hdisj c (List.mem_cons_self c cs))]
    congr 1
    refine ih (c :: seen) (List.nodup_cons.mp hnd).2 ?_
    intro x hx
    intro hmem
    rcases List.mem_cons.mp hmem with rfl | h'
    · exact (List.nodup_cons.mp hnd).1 hx
    · exact hdisj x (List.mem_cons_of_mem c hx) h'

/-- On a duplicate-free list, `Counter` key order is the list itself. -/
theorem counterKeys_eq_self {cs : List String} (h : cs.Nodup) : counterKeys cs = cs :=
  counterKeysAux_eq_self cs [] h (by simp)

/-! ### Supporting lemmas: `maxBy` -/

theorem maxByFold_cons {α : Type} (f : α → ℚ) (x a : α) (xs : List α) :
    maxByFold f x (a :: xs) = maxByFold f (if f x < f a then a else x) xs := rfl

theorem maxByFold_mem {α : Type} (f : α → ℚ) (xs : List α) :
    ∀ x, maxByFold f x xs ∈ x :: xs := by
  induction xs with
  | nil => intro x; simp [maxByFold]
  | cons a xs ih =>
    intro x
    rw [maxByFold_cons]
    rcases List.mem_cons.mp (ih (if f x < f a then a else x)) with h | h
    · rw [h]
      split_ifs <;> simp
    · exact List.mem_cons_of_mem _ (List.mem_cons_of_mem _ h)

theorem maxByFold_le {α : Type} (f : α → ℚ) (xs : List α) :
    ∀ x, ∀ y ∈ x :: xs, f y ≤ f (maxByFold f x xs) := by
  induction xs with
  | nil =>
    intro x y hy
    rcases List.mem_cons.mp hy with rfl | h
    · exact le_refl _
    · simp at h
  | cons a xs ih =>
    intro x y hy
    rw [maxByFold_cons]
    have hmax := ih (if f x < f a then a else x)
    rcases List.mem_cons.mp hy with rfl | hy'
    · have h1 : f y ≤ f (if f y < f a then a else y) := by
        split_ifs with h
        · linarith
        · exact le_refl _
      exact le_trans h1 (hmax _ (List.mem_cons_self _ _))
    · rcases List.mem_cons.mp hy' with rfl | hy''
      · have h1 : f y ≤ f (if f x < f y then y else x) := by
          split_ifs with h
          · exact le_refl _
          · linarith
        exact le_trans h1 (hmax _ (List.mem_cons_self _ _))
      · exact hmax y (List.mem_cons_of_mem _ hy'')

theorem maxBy_mem {α : Type} {f : α → ℚ} {l : List α} {m : α}
    (h : maxBy f l = some m) : m ∈ l := by
  cases l with
  | nil => simp [maxBy] at h
  | cons x xs =>
    rw [maxBy] at h
    have := maxByFold_mem f xs x
    rw [Option.some_inj.mp h] at this
    exact this

theorem maxBy_le {α : Type} {f : α → ℚ} {l : List α} {m : α}
    (h : maxBy f l = some m) : ∀ y ∈ l, f y ≤ f m := by
  cases l with
  | nil => simp [maxBy] at h
  | cons x xs =>
    rw [maxBy] at h
    intro y hy
    have := maxByFold_le f xs x y hy
    rw [Option.some_inj.mp h] at this
    exact this

theorem maxBy_isSome {α : Type} (f : α → ℚ) (x : α) (xs : List α) :
    maxBy f (x :: xs) = some (maxByFold f x xs) := rfl

/-! ### Supporting lemmas: parent selection -/

/-- Eligible candidates have at least two tokens. -/
theorem parent_eligible_two_tokens {tok : String → List String} {item : KW}
    (h : parent_eligible tok item = true) : 2 ≤ (tok item.text).length := by
  rw [parent_eligible] at h
  split_ifs at h with h1 h2 h3
  omega

/-- The pool is contained in the eligible pool. -/
theorem parent_pool_subset {tok : String → List String} {scored : List KW}
    {title h1_h2_text : String} :
    ∀ q ∈ parent_pool tok scored title h1_h2_text,
      q ∈ parent_eligible_pool tok scored := by
  intro q hq
  rw [parent_pool] at hq
  split_ifs at hq with hs
  · exact hq
  · exact (List.mem_filter.mp hq).1

/-- Pool members are eligible. -/
theorem parent_pool_eligible {tok : String → List String} {scored : List KW}
    {title h1_h2_text : String} {q : KW}
    (hq : q ∈ parent_pool tok scored title h1_h2_text) :
    parent_eligible tok q = true :=
  (List.mem_filter.mp (parent_pool_subset q hq)).2

/-- A selected parent is a rank-maximal member of the pool. -/
theorem choose_parent_some_max {tok : String → List String} {scored : List KW}
    {title h1_h2_text url_tokens : String} {p : KW}
    (hp : choose_parent_keyword tok scored title h1_h2_text url_tokens = some p) :
    p ∈ parent_pool tok scored title h1_h2_text
      ∧ ∀ q ∈ parent_pool tok scored title h1_h2_text,
          parent_rank tok title h1_h2_text url_tokens q
            ≤ parent_rank tok title h1_h2_text url_tokens p := by
  rw [choose_parent_keyword] at hp
  split_ifs at hp with h1 h2
  rcases hmb : maxBy (parent_rank tok title h1_h2_text url_tokens)
      (parent_pool tok scored title h1_h2_text) with _ | best
  · rw [hmb] at hp
    exact absurd hp (by simp)
  · rw [hmb] at hp
    dsimp only at hp
    have hbestmem := maxBy_mem hmb
    have hbest2 : 2 ≤ (tok best.text).length :=
      parent_eligible_two_tokens (parent_pool_eligible hbestmem)
    rw [if_neg (by omega)] at hp
    rcases Option.some_inj.mp hp with rfl
    exact ⟨hbestmem, maxBy_le hmb⟩

/-- A selected parent belongs to the input list and is eligible. -/
theorem choose_parent_some_mem {tok : String → List String} {scored : List KW}
    {title h1_h2_text url_tokens : String} {p : KW}
    (hp : choose_parent_keyword tok scored title h1_h2_text url_tokens = some p) :
    p ∈ scored ∧ parent_eligible tok p = true := by
  have h := (choose_parent_some_max hp).1
  have h2 := parent_pool_subset p h
  rw [parent_eligible_pool] at h2
  exact ⟨(List.mem_filter.mp h2).1, (List.mem_filter.mp h2).2⟩

/-- The selector returns `none` exactly when the eligible pool is empty. -/
theorem choose_parent_none_iff {tok : String → List String} {scored : List KW}
    {title h1_h2_text url_tokens : String} :
    choose_parent_keyword tok scored title h1_h2_text url_tokens = none
      ↔ parent_eligible_pool tok scored = [] := by
  constructor
  · intro h
    by_contra hne
    rcases hpool : parent_pool tok scored title h1_h2_text with _ | ⟨x, xs⟩
    · rw [parent_pool] at hpool
      split_ifs at hpool with hs
      · exact hne hpool
      · rw [List.isEmpty_iff] at hs
        exact hs hpool
    · rw [choose_parent_keyword] at h
      split_ifs at h with h1 h2
      · rw [List.isEmpty_iff] at h1
        exact hne (by rw [parent_eligible_pool, h1]; rfl)
      · rw [List.isEmpty_iff] at h2
        exact hne h2
      · rw [hpool] at h
        rw [maxBy_isSome] at h
        dsimp only at h
        have hmem : maxByFold (parent_rank tok title h1_h2_text url_tokens) x xs
            ∈ parent_pool tok scored title h1_h2_text := by
          rw [hpool]; exact maxByFold_mem _ _ _
        have h2tok : 2 ≤ (tok (maxByFold
            (parent_rank tok title h1_h2_text url_tokens) x xs).text).length :=
          parent_eligible_two_tokens (parent_pool_eligible hmem)
        rw [if_neg (by omega)] at h
        exact absurd h (by simp)
  · intro h
    rw [choose_parent_keyword]
    split_ifs with h1 h2
    · rfl
    · rfl
    · rw [List.isEmpty_iff] at h2
      exact absurd h h2

/-- The code's eligibility test agrees with the claim's phrasing: at least
2 tokens, not composed entirely of boilerplate-section tokens, and at least
one non-generic token. -/
theorem contains_true_iff (l : List String) (t : String) :
    l.contains t = true ↔ t ∈ l := by
  rw [List.contains]
  exact List.elem_iff

theorem bool_true_of_not_false {b : Bool} (h : ¬b = false) : b = true := by
  cases b
  · exact absurd rfl h
  · rfl

theorem parent_eligible_iff (tok : String → List String) (it : KW) :
    parent_eligible tok it = true
      ↔ 2 ≤ (tok it.text).length
        ∧ ¬(∀ t ∈ tok it.text, t ∈ SECTION_TERMS)
        ∧ ∃ t ∈ tok it.text, t ∉ GENERIC_BASE_TERMS := by
  rw [parent_eligible]
  split_ifs with h1 h2 h3
  · simp only [Bool.false_eq_true, false_iff]
    rintro ⟨hlen, -, -⟩
    omega
  · simp only [Bool.false_eq_true, false_iff]
    rintro ⟨hlen, hnall, -⟩
    apply hnall
    intro t ht
    rw [Bool.and_eq_true] at h2
    have hfil := h2.2
    rw [decide_eq_true_eq, List.length_eq_zero, List.filter_eq_nil_iff] at hfil
    have h5 := hfil t ht
    rw [Bool.not_eq_true'] at h5
    exact (contains_true_iff _ _).mp (bool_true_of_not_false h5)
  · simp only [Bool.false_eq_true, false_iff]
    rintro ⟨-, -, t, ht, htg⟩
    rw [Bool.not_eq_true', List.any_eq_false] at h3
    have h5 := h3 t ht
    rw [Bool.not_eq_true'] at h5
    exact htg ((contains_true_iff _ _).mp (bool_true_of_not_false h5))
  · simp only [true_iff]
    refine ⟨by omega, ?_, ?_⟩
    · intro hall
      apply h2
      rw [Bool.and_eq_true]
      constructor
      · rw [is_boilerplate_phrase, List.any_eq_true]
        have hne : tok it.text ≠ [] := by
          intro hnil
          rw [hnil] at h1
          simp at h1
        obtain ⟨t0, ht0⟩ := List.exists_mem_of_ne_nil _ hne
        exact ⟨t0, ht0, (contains_true_iff _ _).mpr (hall t0 ht0)⟩
      · rw [decide_eq_true_eq, List.length_eq_zero, List.filter_eq_nil_iff]
        intro a ha
        have hC := (contains_true_iff SECTION_TERMS a).mpr (hall a ha)
        rw [hC]
        simp
    · cases hany : (tok it.text).any (fun t => !GENERIC_BASE_TERMS.contains t) with
      | false => exact absurd (by rw [hany]; rfl) h3
      | true =>
        rw [List.any_eq_true] at hany
        rcases hany with ⟨t, ht, htb⟩
        rw [Bool.not_eq_true'] at htb
        refine ⟨t, ht, fun hmem => ?_⟩
        rw [(contains_true_iff _ _).mpr hmem] at htb
        cases htb

/-- C6: `choose_parent_keyword` returns `none` iff the eligible pool
(candidates with ≥ 2 tokens, not boilerplate-only, with a non-generic
token) is empty; otherwise it returns a rank-maximal element of the
seeded-or-eligible pool. -/
theorem claim_C6 (tok : String → List String) (scored : List KW)
    (title h1_h2_text url_tokens : String) :
    (choose_parent_keyword tok scored title h1_h2_text url_tokens = none
      ↔ parent_eligible_pool tok scored = [])
    ∧ (∀ it : KW, parent_eligible tok it = true
        ↔ 2 ≤ (tok it.text).length
          ∧ ¬(∀ t ∈ tok it.text, t ∈ SECTION_TERMS)
          ∧ ∃ t ∈ tok it.text, t ∉ GENERIC_BASE_TERMS)
    ∧ (parent_pool tok scored title h1_h2_text
        = if parent_seeded tok scored title h1_h2_text = []
          then parent_eligible_pool tok scored
          else parent_seeded tok scored title h1_h2_text)
    ∧ ∀ p, choose_parent_keyword tok scored title h1_h2_text url_tokens = some p →
        p ∈ parent_pool tok scored title h1_h2_text
        ∧ ∀ q ∈ parent_pool tok scored title h1_h2_text,
            parent_rank tok title h1_h2_text url_tokens q
              ≤ parent_rank tok title h1_h2_text url_tokens p := by
  refine ⟨choose_parent_none_iff, parent_eligible_iff tok, ?_, ?_⟩
  · rw [parent_pool]
    rcases hs : parent_seeded tok scored title h1_h2_text with _ | ⟨x, xs⟩ <;> simp
  · intro p hp
    exact choose_parent_some_max hp

/-- Witness for C6: on a concrete input the selector returns an eligible,
rank-maximal parent. -/
theorem claim_C6_witness :
    choose_parent_keyword simpleTok [wkw] "best solar panels" "" "" = some wkw
    ∧ ∀ q ∈ parent_pool simpleTok [wkw] "best solar panels" "",
        parent_rank simpleTok "best solar panels" "" "" q
          ≤ parent_rank simpleTok "best solar panels" "" "" wkw := by
  have h := (claim_C6 simpleTok [wkw] "best solar panels" "" "").2.2.2
  have hc : choose_parent_keyword simpleTok [wkw] "best solar panels" "" ""
      = some wkw := by
    with_unfolding_all decide
  exact ⟨hc, (h wkw hc).2⟩

/-! ### Supporting lemmas: scoring and validation -/

theorem bool_false_of_not_true {b : Bool} (h : ¬b = true) : b = false := by
  cases b
  · rfl
  · exact absurd rfl h

/-- Inversion of the scorer's loop body: a kept entry passed the frequency
threshold and the 5% density rejection, its pre-rounding final score is at
least 0.5, and its stored fields are the rounded computed values. -/
theorem score_entry_some {pw : Nat → ℚ} {tl : Nat}
    {title h1_h2_text url_joined c : String} {f : Nat} {k : KW}
    (h : score_entry pw tl title h1_h2_text url_joined (c, f) = some k) :
    min_freq_threshold tl ≤ f
    ∧ ((f * (wordsOf c).length : ℕ) : ℚ) / (tl : ℚ) ≤ 1/20
    ∧ 1/2 ≤ pw f * calculate_prominence_boost c title h1_h2_text url_joined
        * length_bonus (wordsOf c).length
        * density_penalty (((f * (wordsOf c).length : ℕ) : ℚ) / (tl : ℚ))
        * calculate_semantic_quality c
    ∧ k = { text := c,
            score := round2 (pw f
              * calculate_prominence_boost c title h1_h2_text url_joined
              * length_bonus (wordsOf c).length
              * density_penalty (((f * (wordsOf c).length : ℕ) : ℚ) / (tl : ℚ))
              * calculate_semantic_quality c),
            freq := f,
            density := round2 ((((f * (wordsOf c).length : ℕ) : ℚ) / (tl : ℚ)) * 100),
            boost := round2 (calculate_prominence_boost c title h1_h2_text url_joined),
            semantic_score := round2 (calculate_semantic_quality c) } := by
  simp only [score_entry] at h
  split_ifs at h with h1 h2 h3
  exact ⟨by omega, not_lt.mp h2, h3, (Option.some_inj.mp h).symm⟩

/-- The density penalty of any candidate that passed the 5% density
rejection is at least 0.85 (in particular it is never negative). -/
theorem density_penalty_bound {d : ℚ} (hd : d ≤ 1/20) :
    17/20 ≤ density_penalty d := by
  rw [density_penalty]
  split_ifs with h
  · linarith
  · linarith

/-! ### Claim C4 -/

/-- C4 (amended): the density penalty is 1.0 up to 2% density and
`1 - (density - 0.02) * 5` above; but every candidate that reaches the
penalty computation has density ≤ 5% (the 5% rejection runs first), so its
penalty is at least 0.85 — never negative, and no sign flip occurs. -/
theorem claim_C4 :
    (∀ d : ℚ, d ≤ 1/50 → density_penalty d = 1)
    ∧ (∀ d : ℚ, 1/50 < d → density_penalty d = 1 - (d - 1/50) * 5)
    ∧ (∀ (pw : Nat → ℚ) (tl : Nat) (title h1_h2_text url_joined c : String)
        (f : Nat) (k : KW),
        score_entry pw tl title h1_h2_text url_joined (c, f) = some k →
          ((f * (wordsOf c).length : ℕ) : ℚ) / (tl : ℚ) ≤ 1/20
          ∧ 17/20 ≤ density_penalty (((f * (wordsOf c).length : ℕ) : ℚ) / (tl : ℚ))) := by
  refine ⟨?_, ?_, ?_⟩
  · intro d hd
    rw [density_penalty]
    rw [if_neg (by linarith)]
  · intro d hd
    rw [density_penalty]
    rw [if_pos hd]
  · intro pw tl title h1_h2_text url_joined c f k hk
    have h := (score_entry_some hk).2.1
    exact ⟨h, density_penalty_bound h⟩

/-- Counterexample to C4 as stated: no candidate that reaches the penalty
computation (i.e. is kept by the scorer's loop body) can have a negative
density penalty. -/
theorem claim_C4_cex :
    ¬ ∃ (pw : Nat → ℚ) (tl : Nat) (title h1_h2_text url_joined c : String)
        (f : Nat) (k : KW),
        score_entry pw tl title h1_h2_text url_joined (c, f) = some k
        ∧ density_penalty (((f * (wordsOf c).length : ℕ) : ℚ) / (tl : ℚ)) < 0 := by
  rintro ⟨pw, tl, title, h1_h2_text, url_joined, c, f, k, hk, hneg⟩
  have h := (score_entry_some hk).2.1
  have := density_penalty_bound h
  linarith

/-- Witness for C4: the amended claim evaluated at a concrete kept entry
(density exactly 5%, penalty 0.85). -/
theorem claim_C4_witness :
    density_penalty (1/100) = 1
    ∧ density_penalty (1/25) = 1 - (1/25 - 1/50) * 5
    ∧ (((2 * (wordsOf "solar").length : ℕ) : ℚ) / ((40 : ℕ) : ℚ) ≤ 1/20
        ∧ 17/20 ≤ density_penalty
            (((2 * (wordsOf "solar").length : ℕ) : ℚ) / ((40 : ℕ) : ℚ))) := by
  refine ⟨claim_C4.1 (1/100) (by norm_num), claim_C4.2.1 (1/25) (by norm_num), ?_⟩
  refine claim_C4.2.2 pw08 40 "solar" "" "" "solar" 2
    ⟨"solar", 222/100, 2, 5, 3, 1⟩ ?_
  with_unfolding_all decide

/-! ### Claim C5 -/

/-- The code's keep test agrees with the claim's phrasing. -/
theorem valid_check_iff (kw : KW) : valid_check kw = true ↔ claim_valid kw := by
  rw [valid_check, claim_valid]
  split_ifs with h1 h2 h3 h4 h5
  · simp only [Bool.false_eq_true, false_iff]
    rintro ⟨hs, -⟩
    linarith
  · simp only [Bool.false_eq_true, false_iff]
    rintro ⟨-, hf, -⟩
    omega
  · simp only [Bool.false_eq_true, false_iff]
    rintro ⟨-, -, hd, -⟩
    linarith
  · simp only [Bool.false_eq_true, false_iff]
    rintro ⟨-, -, -, hg, -⟩
    rw [List.any_eq_true] at h4
    rcases h4 with ⟨p, hp, hc⟩
    rw [hg p hp] at hc
    cases hc
  · simp only [Bool.false_eq_true, false_iff]
    rintro ⟨-, -, -, -, hs⟩
    rw [Bool.and_eq_true, decide_eq_true_eq] at h5
    exact hs h5.1 ((contains_true_iff _ _).mp h5.2)
  · simp only [true_iff]
    refine ⟨le_of_not_lt h1, by omega, le_of_not_lt h3, ?_, ?_⟩
    · intro p hp
      have hf : (GENERIC_PATTERNS.any fun q => strContains (lowerStr kw.text) q)
          = false := bool_false_of_not_true h4
      rw [List.any_eq_false] at hf
      exact bool_false_of_not_true (hf p hp)
    · intro hlen hmem
      apply h5
      rw [Bool.and_eq_true, decide_eq_true_eq]
      exact ⟨hlen, (contains_true_iff _ _).mpr hmem⟩

/-- C5: the Quality Validator keeps a record iff it satisfies the claim's
five conditions, survivors keep their input order, and every keyword of the
top-30 list has score ≥ 1.5 and frequency ≥ 2. -/
theorem claim_C5 (kws : List KW) :
    validate_keyword_quality kws = kws.filter (fun kw => decide (claim_valid kw))
    ∧ List.Sublist (validate_keyword_quality kws) kws
    ∧ ∀ k ∈ (validate_keyword_quality kws).take 30, 3/2 ≤ k.score ∧ 2 ≤ k.freq := by
  have hpt : ∀ kw : KW, valid_check kw = decide (claim_valid kw) := by
    intro kw
    by_cases h : claim_valid kw
    · rw [decide_eq_true h]
      exact (valid_check_iff kw).mpr h
    · rw [decide_eq_false h]
      exact bool_false_of_not_true (fun ht => h ((valid_check_iff kw).mp ht))
  refine ⟨?_, ?_, ?_⟩
  · rw [validate_keyword_quality]
    exact List.filter_congr (fun kw _ => hpt kw)
  · rw [validate_keyword_quality]
    exact List.filter_sublist kws
  · intro k hk
    have hk' : k ∈ validate_keyword_quality kws := List.take_subset 30 _ hk
    rw [validate_keyword_quality, List.mem_filter] at hk'
    have h := (valid_check_iff k).mp hk'.2
    exact ⟨h.1, h.2.1⟩

/-- Witness for C5: a concrete record surviving validation, with the score
and frequency floors checked through the theorem. -/
theorem claim_C5_witness :
    validate_keyword_quality [wkw]
      = [wkw].filter (fun kw => decide (claim_valid kw))
    ∧ (3/2 ≤ wkw.score ∧ 2 ≤ wkw.freq) := by
  refine ⟨(claim_C5 [wkw]).1, (claim_C5 [wkw]).2.2 wkw ?_⟩
  with_unfolding_all decide

/-! ### Claim C8 -/

/-- The semantic-quality multiplier is clamped below by 0.1. -/
theorem semantic_quality_ge (keyword : String) :
    1/10 ≤ calculate_semantic_quality keyword := by
  rw [calculate_semantic_quality]
  exact le_max_left _ _

/-- The length bonus is at least 0.5. -/
theorem length_bonus_ge (word_count : Nat) : 1/2 ≤ length_bonus word_count := by
  rw [length_bonus]
  split_ifs <;> norm_num

/-- Boost evaluation at given hit pattern: title only. -/
theorem boost_title_only {keyword title h1_h2_text url_tokens : String}
    (hT : in_text keyword title = true) (hH : in_text keyword h1_h2_text = false)
    (hU : in_text keyword url_tokens = false) :
    calculate_prominence_boost keyword title h1_h2_text url_tokens = 3 := by
  rw [calculate_prominence_boost, hT, hH, hU]
  norm_num

/-- Boost evaluation at given hit pattern: no hits. -/
theorem boost_none {keyword title h1_h2_text url_tokens : String}
    (hT : in_text keyword title = false) (hH : in_text keyword h1_h2_text = false)
    (hU : in_text keyword url_tokens = false) :
    calculate_prominence_boost keyword title h1_h2_text url_tokens = 1 := by
  rw [calculate_prominence_boost, hT, hH, hU]
  norm_num

/-- C8: the prominence boost is the product of the independent ×3.0 / ×1.8
/ ×1.5 factors (so ×8.1 with all three hits), and a candidate present in
the title gets a strictly greater final score (after rounding) than an
otherwise-identical candidate absent from title, headings and URL. -/
theorem claim_C8 :
    (∀ keyword title h1_h2_text url_tokens : String,
      calculate_prominence_boost keyword title h1_h2_text url_tokens
        = 1 * (if in_text keyword title then 3 else 1)
          * (if in_text keyword h1_h2_text then 9/5 else 1)
          * (if in_text keyword url_tokens then 3/2 else 1))
    ∧ (∀ keyword title h1_h2_text url_tokens : String,
      in_text keyword title = true → in_text keyword h1_h2_text = true →
      in_text keyword url_tokens = true →
      calculate_prominence_boost keyword title h1_h2_text url_tokens = 81/10)
    ∧ ∀ (pw : Nat → ℚ) (f : Nat) (keyword title1 title2 h1_h2_text url_joined : String)
        (d : ℚ),
        1 ≤ pw f → d ≤ 1/20 →
        in_text keyword title1 = true → in_text keyword title2 = false →
        in_text keyword h1_h2_text = false → in_text keyword url_joined = false →
        round2 (pw f * calculate_prominence_boost keyword title2 h1_h2_text url_joined
            * length_bonus (wordsOf keyword).length * density_penalty d
            * calculate_semantic_quality keyword)
          < round2 (pw f * calculate_prominence_boost keyword title1 h1_h2_text url_joined
            * length_bonus (wordsOf keyword).length * density_penalty d
            * calculate_semantic_quality keyword) := by
  refine ⟨fun k t h u => rfl, ?_, ?_⟩
  · intro k t h u hT hH hU
    rw [calculate_prominence_boost, hT, hH, hU]
    norm_num
  · intro pw f keyword title1 title2 h1_h2_text url_joined d hpw hd hT1 hT2 hH hU
    rw [boost_title_only hT1 hH hU, boost_none hT2 hH hU]
    have hlb := length_bonus_ge (wordsOf keyword).length
    have hdp := density_penalty_bound hd
    have hsq := semantic_quality_ge keyword
    set plain := pw f * 1 * length_bonus (wordsOf keyword).length
      * density_penalty d * calculate_semantic_quality keyword with hplain
    have hboost3 : pw f * 3 * length_bonus (wordsOf keyword).length
        * density_penalty d * calculate_semantic_quality keyword = 3 * plain := by
      rw [hplain]; ring
    rw [hboost3]
    have hlow : 17/400 ≤ plain := by
      rw [hplain]
      calc (17/400 : ℚ) = 1 * 1 * (1/2) * (17/20) * (1/10) := by norm_num
        _ ≤ pw f * 1 * length_bonus (wordsOf keyword).length
            * density_penalty d * calculate_semantic_quality keyword := by
          gcongr
    have h1 := round2_le plain
    have h2 := round2_ge (3 * plain)
    linarith

/-- Witness for C8: the strict title advantage at a concrete candidate. -/
theorem claim_C8_witness :
    (1 : ℚ) ≤ pw08 2
    ∧ (1/20 : ℚ) ≤ 1/20
    ∧ in_text "solar" "solar" = true
    ∧ in_text "solar" "" = false
    ∧ round2 (pw08 2 * calculate_prominence_boost "solar" "" "" ""
        * length_bonus (wordsOf "solar").length * density_penalty (1/20)
        * calculate_semantic_quality "solar")
      < round2 (pw08 2 * calculate_prominence_boost "solar" "solar" "" ""
        * length_bonus (wordsOf "solar").length * density_penalty (1/20)
        * calculate_semantic_quality "solar") := by
  have h1 : (1 : ℚ) ≤ pw08 2 := by with_unfolding_all decide
  have h2 : in_text "solar" "solar" = true := by decide
  have h3 : in_text "solar" "" = false := by decide
  exact ⟨h1, le_refl _, h2, h3,
    claim_C8.2.2 pw08 2 "solar" "solar" "" "" "" (1/20) h1 (le_refl _) h2 h3 h3 h3⟩

/-! ### Claim C10 -/

/-- The parent field produced by `build_result`. -/
theorem build_result_parent (tok : String → List String)
    (url final_url language : String) (nCand nScored nValid : Nat)
    (top_keywords : List KW) (parent : PInfo) (other_keywords : List KW) :
    (build_result tok url final_url language nCand nScored nValid top_keywords
        parent other_keywords).parent
      = some { text := parent.text, score := parent.score, freq := parent.freq,
               intent := infer_intent parent.text } := rfl

/-- Every `children` entry produced by `build_result` has `freq = 0` and
carries the rounded Jaccard similarity to the parent's token set. -/
theorem build_result_children (tok : String → List String)
    (url final_url language : String) (nCand nScored nValid : Nat)
    (top_keywords : List KW) (parent : PInfo) (other_keywords : List KW) :
    ∀ c ∈ (build_result tok url final_url language nCand nScored nValid
        top_keywords parent other_keywords).children,
      c.freq = 0
      ∧ c.similarity = round3 (jaccard_similarity ((tok parent.text).toFinset)
          ((tok c.text).toFinset)) := by
  intro c hc
  simp only [build_result, List.mem_map] at hc
  rcases hc with ⟨sp, hsp, rfl⟩
  exact ⟨rfl, rfl⟩

/-- The three shapes an extraction result can take: the empty result (no
top keywords), the degraded-parent fallback, or a selected parent. -/
theorem extract_shape (tok : String → List String) (pw : Nat → ℚ)
    (dedup : List String → List String) (detect : String → String)
    (sig : Signals) (readable_text url final_url lang_guess : String) :
    (top_of tok pw dedup sig readable_text = []
      ∧ extract_keywords_from_html tok pw dedup detect sig readable_text
          url final_url lang_guess
        = { url := if final_url = "" then url else final_url,
            language := language_of detect readable_text lang_guess,
            parent := none, children := [], tree := TNode.mk url 0 [],
            keywords := [],
            debug := { total_candidates := (candidates_of tok dedup sig readable_text).length,
                       scored_keywords := (scored_of tok pw dedup sig readable_text).length,
                       validated_keywords :=
                         (validate_keyword_quality (scored_of tok pw dedup sig readable_text)).length,
                       top_keywords_count := 0,
                       parent_selected := none, parent_score := none } })
    ∨ (∃ t0 rest, top_of tok pw dedup sig readable_text = t0 :: rest
        ∧ choose_parent_keyword tok (top_of tok pw dedup sig readable_text)
            sig.title (h1_h2_of sig) (String.intercalate " " sig.url_tokens) = none
        ∧ extract_keywords_from_html tok pw dedup detect sig readable_text
            url final_url lang_guess
          = build_result tok url final_url (language_of detect readable_text lang_guess)
              (candidates_of tok dedup sig readable_text).length
              (scored_of tok pw dedup sig readable_text).length
              (validate_keyword_quality (scored_of tok pw dedup sig readable_text)).length
              (top_of tok pw dedup sig readable_text) ⟨t0.text, t0.score, t0.freq⟩ rest)
    ∨ (∃ q, choose_parent_keyword tok (top_of tok pw dedup sig readable_text)
            sig.title (h1_h2_of sig) (String.intercalate " " sig.url_tokens) = some q
        ∧ extract_keywords_from_html tok pw dedup detect sig readable_text
            url final_url lang_guess
          = build_result tok url final_url (language_of detect readable_text lang_guess)
              (candidates_of tok dedup sig readable_text).length
              (scored_of tok pw dedup sig readable_text).length
              (validate_keyword_quality (scored_of tok pw dedup sig readable_text)).length
              (top_of tok pw dedup sig readable_text) ⟨q.text, q.score, q.freq⟩
              ((top_of tok pw dedup sig readable_text).filter
                (fun kw => kw.text ≠ q.text))) := by
  rcases hcp : choose_parent_keyword tok (top_of tok pw dedup sig readable_text)
      sig.title (h1_h2_of sig) (String.intercalate " " sig.url_tokens) with _ | q
  · rcases htop : top_of tok pw dedup sig readable_text with _ | ⟨t0, rest⟩
    · left
      refine ⟨rfl, ?_⟩
      rw [extract_keywords_from_html, hcp, htop]
    · right; left
      refine ⟨t0, rest, rfl, rfl, ?_⟩
      rw [extract_keywords_from_html, hcp, htop]
  · right; right
    refine ⟨q, rfl, ?_⟩
    rw [extract_keywords_from_html, hcp]

/-- C10: in every result with a non-null parent, each `children` entry (a
sub-parent) has `freq = 0` regardless of the underlying keyword's actual
frequency, and its `similarity` is the Jaccard similarity between the
parent's token set and its own token set, rounded to 3 decimals. -/
theorem claim_C10 (tok : String → List String) (pw : Nat → ℚ)
    (dedup : List String → List String) (detect : String → String)
    (sig : Signals) (readable_text url final_url lang_guess : String) :
    ∀ p, (extract_keywords_from_html tok pw dedup detect sig readable_text
        url final_url lang_guess).parent = some p →
    ∀ c ∈ (extract_keywords_from_html tok pw dedup detect sig readable_text
        url final_url lang_guess).children,
      c.freq = 0
      ∧ c.similarity = round3 (jaccard_similarity ((tok p.text).toFinset)
          ((tok c.text).toFinset)) := by
  intro p hp c hc
  rcases extract_shape tok pw dedup detect sig readable_text url final_url
      lang_guess with ⟨-, hemp⟩ | ⟨t0, rest, -, -, heq⟩ | ⟨q, -, heq⟩
  · rw [hemp] at hp
    exact absurd hp (by simp)
  · rw [heq] at hp hc
    rw [build_result_parent] at hp
    injection hp with hp'
    subst hp'
    dsimp only
    have hb := build_result_children tok url final_url
      (language_of detect readable_text lang_guess)
      (candidates_of tok dedup sig readable_text).length
      (scored_of tok pw dedup sig readable_text).length
      (validate_keyword_quality (scored_of tok pw dedup sig readable_text)).length
      (top_of tok pw dedup sig readable_text) ⟨t0.text, t0.score, t0.freq⟩ rest
    dsimp only at hb
    exact hb c hc
  · rw [heq] at hp hc
    rw [build_result_parent] at hp
    injection hp with hp'
    subst hp'
    dsimp only
    have hb := build_result_children tok url final_url
      (language_of detect readable_text lang_guess)
      (candidates_of tok dedup sig readable_text).length
      (scored_of tok pw dedup sig readable_text).length
      (validate_keyword_quality (scored_of tok pw dedup sig readable_text)).length
      (top_of tok pw dedup sig readable_text) ⟨q.text, q.score, q.freq⟩
      ((top_of tok pw dedup sig readable_text).filter (fun kw => kw.text ≠ q.text))
    dsimp only at hb
    exact hb c hc

set_option maxRecDepth 8000

/-! ### Claim C1 -/

/-- C1 (amended): whenever the Parent Selector itself chooses the parent
(`choose_parent_keyword` returns `some`), the parent has at least two
tokens; on the degraded fallback path (selector returned `none` and the
top-scored validated keyword is promoted) the multi-word invariant can
fail. -/
theorem claim_C1 (tok : String → List String) (scored : List KW)
    (title h1_h2_text url_tokens : String) (p : KW)
    (hp : choose_parent_keyword tok scored title h1_h2_text url_tokens = some p) :
    2 ≤ (tok p.text).length :=
  parent_eligible_two_tokens (choose_parent_some_mem hp).2

/-- Witness for C1: a concrete selection with a three-token parent. -/
theorem claim_C1_witness :
    choose_parent_keyword simpleTok [wkw] "best solar panels" "" "" = some wkw
    ∧ 2 ≤ (simpleTok wkw.text).length := by
  have hc : choose_parent_keyword simpleTok [wkw] "best solar panels" "" ""
      = some wkw := by
    with_unfolding_all decide
  exact ⟨hc, claim_C1 simpleTok [wkw] "best solar panels" "" "" wkw hc⟩

/-- Counterexample to C1 as stated: a concrete page on which the pipeline
returns a non-null parent (`solar`, promoted by the degraded fallback)
whose text has a single token. -/
theorem claim_C1_cex :
    (extract_keywords_from_html simpleTok pw08 dedupD detectEn cexSig cexBody
        "https://solarsite.example/page" "" "en").parent
      = some ⟨"solar", 222/100, 2, "informational"⟩
    ∧ (simpleTok "solar").length = 1 := by
  constructor
  · with_unfolding_all decide
  · decide

/-! ### Claim C9 -/

/-- C9 (amended): the pipeline output is a function of its inputs plus the
candidate-set enumeration order: two invocations that enumerate the
candidate set identically return identical results, and regardless of
enumeration the scored-keyword list is the same up to order. -/
theorem claim_C9 :
    (∀ (tok : String → List String) (pw : Nat → ℚ)
        (dedup1 dedup2 : List String → List String) (detect : String → String)
        (sig : Signals) (readable_text url final_url lang_guess : String),
        (∀ l, dedup1 l = dedup2 l) →
        extract_keywords_from_html tok pw dedup1 detect sig readable_text
            url final_url lang_guess
          = extract_keywords_from_html tok pw dedup2 detect sig readable_text
              url final_url lang_guess)
    ∧ (∀ (pw : Nat → ℚ) (c1 c2 : List String)
        (text title h1_h2_text : String) (url_tokens : List String),
        c1.Nodup → c2.Nodup → List.Perm c1 c2 →
        List.Perm (score_keywords pw c1 text title h1_h2_text url_tokens)
          (score_keywords pw c2 text title h1_h2_text url_tokens)) := by
  constructor
  · intro tok pw dedup1 dedup2 detect sig readable_text url final_url lang_guess h
    have : dedup1 = dedup2 := funext h
    rw [this]
  · intro pw c1 c2 text title h1_h2_text url_tokens h1 h2 hperm
    rw [score_keywords, score_keywords, counterKeys_eq_self h1,
      counterKeys_eq_self h2]
    have hf1 := hperm.filterMap
      (fun c => if 0 < countSubstr (lowerStr text) c
        then some (c, countSubstr (lowerStr text) c) else none)
    have hf2 := hf1.filterMap (score_entry pw ((wordsOf (lowerStr text)).length)
      title h1_h2_text (String.intercalate " " url_tokens))
    exact ((List.perm_insertionSort _ _).trans hf2).trans
      (List.perm_insertionSort _ _).symm

/-- Witness for C9: the amended determinism applied at concrete inputs. -/
theorem claim_C9_witness :
    extract_keywords_from_html simpleTok pw08 dedupD detectEn c9Sig c9Body
        "u" "" "en"
      = extract_keywords_from_html simpleTok pw08 (fun l => List.dedup l)
          detectEn c9Sig c9Body "u" "" "en"
    ∧ List.Perm (score_keywords pw08 ["alpha", "beta"] "alpha beta" "alpha beta" "" [])
        (score_keywords pw08 ["beta", "alpha"] "alpha beta" "alpha beta" "" []) := by
  constructor
  · exact claim_C9.1 simpleTok pw08 dedupD (fun l => List.dedup l) detectEn
      c9Sig c9Body "u" "" "en" (fun l => rfl)
  · exact claim_C9.2 pw08 ["alpha", "beta"] ["beta", "alpha"]
      "alpha beta" "alpha beta" "" [] (by decide) (by decide)
      (List.Perm.swap "beta" "alpha" [])

/-- Counterexample to C9 as stated: two valid enumerations of the same
candidate set (two hash seeds) on identical pipeline inputs produce
different results — the symmetric keywords `alpha` and `beta` tie at score
2.22, and whichever the enumeration lists first becomes the parent. -/
theorem claim_C9_cex :
    dedup_spec dedupD ∧ dedup_spec dedupR
    ∧ (extract_keywords_from_html simpleTok pw08 dedupD detectEn c9Sig c9Body
        "u" "" "en").parent
      ≠ (extract_keywords_from_html simpleTok pw08 dedupR detectEn c9Sig c9Body
        "u" "" "en").parent := by
  refine ⟨dedupD_spec, dedupR_spec, ?_⟩
  with_unfolding_all decide

/-- Shared concrete evaluation: the symmetric scenario's degraded parent
under the `dedupD` enumeration. -/
theorem c9_parent_eval :
    (extract_keywords_from_html simpleTok pw08 dedupD detectEn c9Sig c9Body
        "u" "" "en").parent = some ⟨"alpha", 111/50, 2, "informational"⟩ := by
  with_unfolding_all decide

/-- Witness for C10: on a concrete page (degraded-fallback parent `alpha`
with one sub-parent `beta`), every child has `freq = 0` and the rounded
Jaccard similarity. -/
theorem claim_C10_witness :
    (extract_keywords_from_html simpleTok pw08 dedupD detectEn c9Sig c9Body
        "u" "" "en").parent = some ⟨"alpha", 111/50, 2, "informational"⟩
    ∧ ∀ c ∈ (extract_keywords_from_html simpleTok pw08 dedupD detectEn c9Sig
        c9Body "u" "" "en").children,
        c.freq = 0
        ∧ c.similarity = round3 (jaccard_similarity ((simpleTok "alpha").toFinset)
            ((simpleTok c.text).toFinset)) := by
  exact ⟨c9_parent_eval, claim_C10 simpleTok pw08 dedupD detectEn c9Sig c9Body
    "u" "" "en" ⟨"alpha", 111/50, 2, "informational"⟩ c9_parent_eval⟩

/-! ### Claim C3 -/

/-- Membership in the `frequencies` map: the stored count is the substring
count and is positive. -/
theorem freq_mem {tl : String} {cands : List String} {c : String} {n : Nat}
    (h : (c, n) ∈ (counterKeys cands).filterMap
        (fun c => if 0 < countSubstr tl c then some (c, countSubstr tl c) else none)) :
    n = countSubstr tl c ∧ 0 < n := by
  rw [List.mem_filterMap] at h
  rcases h with ⟨a, ha, hga⟩
  split_ifs at hga with h0
  simp only [Option.some_inj, Prod.mk.injEq] at hga
  rcases hga with ⟨rfl, rfl⟩
  exact ⟨rfl, h0⟩

/-- Inversion for members of the scored list. -/
theorem score_keywords_mem {pw : Nat → ℚ} {cands : List String}
    {text title h1_h2_text : String} {url_tokens : List String} {k : KW}
    (hk : k ∈ score_keywords pw cands text title h1_h2_text url_tokens) :
    k.freq = countSubstr (lowerStr text) k.text
    ∧ min_freq_threshold ((wordsOf (lowerStr text)).length) ≤ k.freq
    ∧ k.score = round2 (pw k.freq
        * calculate_prominence_boost k.text title h1_h2_text
            (String.intercalate " " url_tokens)
        * length_bonus (wordsOf k.text).length
        * density_penalty (((k.freq * (wordsOf k.text).length : ℕ) : ℚ)
            / (((wordsOf (lowerStr text)).length : ℕ) : ℚ))
        * calculate_semantic_quality k.text)
    ∧ 1/2 ≤ k.score := by
  rw [score_keywords] at hk
  have hk2 := (List.perm_insertionSort byScoreDesc _).mem_iff.mp hk
  rw [List.mem_filterMap] at hk2
  rcases hk2 with ⟨⟨c, f⟩, hcf, hse⟩
  have hinv := score_entry_some hse
  have hf := freq_mem hcf
  rcases hinv with ⟨hth, hd, hfs, hkeq⟩
  subst hkeq
  dsimp only
  refine ⟨hf.1, hth, rfl, round2_ge_half hfs⟩

/-- C3: every keyword kept by the Scorer has frequency equal to the
substring-occurrence count in the lowercased full text and at least
`max(1, ⌊0.05% · word count⌋)`; its score is the rounded product
`(freq^0.8) × boost × length bonus × density penalty × semantic quality`
and is at least 0.5; and the output is sorted by score descending. -/
theorem claim_C3 (pw : Nat → ℚ) (candidates : List String)
    (text title h1_h2_text : String) (url_tokens : List String) :
    (∀ k ∈ score_keywords pw candidates text title h1_h2_text url_tokens,
      k.freq = countSubstr (lowerStr text) k.text
      ∧ min_freq_threshold ((wordsOf (lowerStr text)).length) ≤ k.freq
      ∧ k.score = round2 (pw k.freq
          * calculate_prominence_boost k.text title h1_h2_text
              (String.intercalate " " url_tokens)
          * length_bonus (wordsOf k.text).length
          * density_penalty (((k.freq * (wordsOf k.text).length : ℕ) : ℚ)
              / (((wordsOf (lowerStr text)).length : ℕ) : ℚ))
          * calculate_semantic_quality k.text)
      ∧ 1/2 ≤ k.score)
    ∧ (score_keywords pw candidates text title h1_h2_text url_tokens).Sorted
        (fun a b => b.score ≤ a.score) := by
  constructor
  · intro k hk
    exact score_keywords_mem hk
  · have h := List.sorted_insertionSort byScoreDesc
      ((((counterKeys candidates).filterMap
          (fun c => if 0 < countSubstr (lowerStr text) c
            then some (c, countSubstr (lowerStr text) c) else none)).filterMap
        (score_entry pw ((wordsOf (lowerStr text)).length) title h1_h2_text
          (String.intercalate " " url_tokens))))
    exact h

/-- Witness for C3: a concrete scored keyword satisfying all the claimed
equalities and the sortedness of the output. -/
theorem claim_C3_witness :
    (⟨"alpha", 128/100, 1, 5, 3, 1⟩ : KW)
      ∈ score_keywords pw08 ["alpha"] c3Text "alpha" "" []
    ∧ ((⟨"alpha", 128/100, 1, 5, 3, 1⟩ : KW).freq
        = countSubstr (lowerStr c3Text) "alpha"
      ∧ min_freq_threshold ((wordsOf (lowerStr c3Text)).length) ≤ 1
      ∧ 1/2 ≤ (128/100 : ℚ))
    ∧ (score_keywords pw08 ["alpha"] c3Text "alpha" "" []).Sorted
        (fun a b => b.score ≤ a.score) := by
  have hk : (⟨"alpha", 128/100, 1, 5, 3, 1⟩ : KW)
      ∈ score_keywords pw08 ["alpha"] c3Text "alpha" "" [] := by
    with_unfolding_all decide
  have h := claim_C3 pw08 ["alpha"] c3Text "alpha" "" []
  have hm := h.1 _ hk
  exact ⟨hk, ⟨hm.1, hm.2.1, hm.2.2.2⟩, h.2⟩

/-! ### Claim C7 -/

/-- The keywords field produced by `build_result`. -/
theorem build_result_keywords (tok : String → List String)
    (url final_url language : String) (nCand nScored nValid : Nat)
    (top_keywords : List KW) (parent : PInfo) (other_keywords : List KW) :
    (build_result tok url final_url language nCand nScored nValid top_keywords
        parent other_keywords).keywords
      = top_keywords.map (fun kw =>
          { text := kw.text, score := kw.score, freq := kw.freq,
            intent := infer_intent kw.text }) := rfl

/-- C7: with no extractable text (the tokenizer yields nothing from the
combined signals), the pipeline returns the well-defined empty result —
parent null, no keywords, no children, a childless root for the URL — and
(being a total function) never raises; the same empty shape is returned
whenever nothing survives scoring and validation. -/
theorem claim_C7 :
    (∀ (tok : String → List String) (pw : Nat → ℚ)
        (dedup : List String → List String) (detect : String → String)
        (sig : Signals) (readable_text url final_url lang_guess : String),
      dedup_spec dedup → tok (all_text_of sig readable_text) = [] →
      extract_keywords_from_html tok pw dedup detect sig readable_text
          url final_url lang_guess
        = { url := if final_url = "" then url else final_url,
            language := language_of detect readable_text lang_guess,
            parent := none, children := [], tree := TNode.mk url 0 [],
            keywords := [],
            debug := ⟨0, 0, 0, 0, none, none⟩ })
    ∧ (∀ (tok : String → List String) (pw : Nat → ℚ)
        (dedup : List String → List String) (detect : String → String)
        (sig : Signals) (readable_text url final_url lang_guess : String),
      (extract_keywords_from_html tok pw dedup detect sig readable_text
          url final_url lang_guess).keywords = [] →
      (extract_keywords_from_html tok pw dedup detect sig readable_text
          url final_url lang_guess).parent = none
      ∧ (extract_keywords_from_html tok pw dedup detect sig readable_text
          url final_url lang_guess).children = []
      ∧ (extract_keywords_from_html tok pw dedup detect sig readable_text
          url final_url lang_guess).tree = TNode.mk url 0 []
      ∧ (extract_keywords_from_html tok pw dedup detect sig readable_text
          url final_url lang_guess).url
        = (if final_url = "" then url else final_url)) := by
  constructor
  · intro tok pw dedup detect sig readable_text url final_url lang_guess hd htok
    have hde : dedup [] = [] := by
      rw [List.eq_nil_iff_forall_not_mem]
      intro x hx
      rw [(hd []).2 x] at hx
      exact absurd hx (List.not_mem_nil x)
    have hcand : candidates_of tok dedup sig readable_text = [] := by
      rw [candidates_of, generate_candidates, htok]
      show (dedup []).filter keep_candidate = []
      rw [hde]
      rfl
    have hscored : scored_of tok pw dedup sig readable_text = [] := by
      rw [scored_of, hcand]
      rfl
    have htop : top_of tok pw dedup sig readable_text = [] := by
      rw [top_of, hscored]
      rfl
    have hcp : choose_parent_keyword tok (top_of tok pw dedup sig readable_text)
        sig.title (h1_h2_of sig) (String.intercalate " " sig.url_tokens) = none := by
      rw [htop]
      rfl
    rw [extract_keywords_from_html, hcp, htop, hcand, hscored]
    rfl
  · intro tok pw dedup detect sig readable_text url final_url lang_guess hkw
    rcases extract_shape tok pw dedup detect sig readable_text url final_url
        lang_guess with ⟨-, hemp⟩ | ⟨t0, rest, htop, -, heq⟩ | ⟨q, hcp, heq⟩
    · rw [hemp]
      exact ⟨rfl, rfl, rfl, rfl⟩
    · rw [heq, build_result_keywords, htop] at hkw
      exact absurd hkw (by simp)
    · have hne : top_of tok pw dedup sig readable_text ≠ [] := by
        intro h0
        have hmem := (choose_parent_some_mem hcp).1
        rw [h0] at hmem
        exact absurd hmem (List.not_mem_nil q)
      rw [heq, build_result_keywords] at hkw
      rw [List.map_eq_nil_iff] at hkw
      exact absurd hkw hne

/-- Witness for C7: the concrete empty page (all signals empty, empty
readable text) yields exactly the empty result, and the general empty-shape
implication evaluated there. -/
theorem claim_C7_witness :
    extract_keywords_from_html simpleTok pw08 dedupD detectEn
        ⟨"", "", "", "", [], []⟩ "" "https://x.example/" "" "en"
      = { url := "https://x.example/", language := "en",
          parent := none, children := [], tree := TNode.mk "https://x.example/" 0 [],
          keywords := [], debug := ⟨0, 0, 0, 0, none, none⟩ } := by
  have h := claim_C7.1 simpleTok pw08 dedupD detectEn
    ⟨"", "", "", "", [], []⟩ "" "https://x.example/" "" "en"
    dedupD_spec (by decide)
  rw [h]
  rfl

/-! ### Claim C2: tree completeness -/

theorem treeTexts_mk (t : String) (s : ℚ) (cs : List TNode) :
    treeTexts (TNode.mk t s cs) = t :: treeTextsList cs := by
  rw [treeTexts]

theorem treeTextsList_nil : treeTextsList [] = [] := by
  rw [treeTextsList]

theorem treeTextsList_cons (c : TNode) (cs : List TNode) :
    treeTextsList (c :: cs) = treeTexts c ++ treeTextsList cs := by
  rw [treeTextsList]

theorem treeTextsList_append (l₁ l₂ : List TNode) :
    treeTextsList (l₁ ++ l₂) = treeTextsList l₁ ++ treeTextsList l₂ := by
  induction l₁ with
  | nil => rw [List.nil_append, treeTextsList_nil, List.nil_append]
  | cons c cs ih =>
    rw [List.cons_append, treeTextsList_cons, treeTextsList_cons, ih,
      List.append_assoc]

/-- The texts of a forest of leaves. -/
theorem treeTextsList_leaves (l : List KW) :
    treeTextsList (l.map (fun kw => TNode.mk kw.text kw.score []))
      = l.map KW.text := by
  induction l with
  | nil => rw [List.map_nil, treeTextsList_nil, List.map_nil]
  | cons k t ih =>
    rw [List.map_cons, treeTextsList_cons, treeTexts_mk, treeTextsList_nil,
      List.map_cons, ih]
    rfl

/-- Filtering keyword records on a text predicate commutes with projecting
the texts. -/
theorem map_text_filter (l : List KW) (p : String → Bool) :
    (l.filter (fun kw => p kw.text)).map KW.text = (l.map KW.text).filter p := by
  induction l with
  | nil => rfl
  | cons a t ih =>
    rw [List.filter_cons, List.map_cons, List.filter_cons]
    by_cases hp : p a.text = true
    · rw [if_pos hp, if_pos hp, List.map_cons, ih]
    · rw [if_neg hp, if_neg hp, ih]

/-- Removing the (unique) occurrence of a member and putting it in front is
a permutation. -/
theorem cons_filter_ne_perm {l : List String} {x : String} (hnd : l.Nodup)
    (hx : x ∈ l) :
    List.Perm (x :: l.filter (fun t => t ≠ x)) l := by
  induction l with
  | nil => cases hx
  | cons a t ih =>
    rcases List.mem_cons.mp hx with rfl | hx'
    · rw [List.filter_cons]
      have hne : (decide (x ≠ x) : Bool) = false := by simp
      rw [hne]
      simp only [Bool.false_eq_true, if_false]
      have hself : t.filter (fun b => decide (b ≠ x)) = t := by
        rw [List.filter_eq_self]
        intro b hb
        have hbx : b ≠ x := by
          rintro rfl
          exact (List.nodup_cons.mp hnd).1 hb
        simp [hbx]
      rw [hself]
    · have ha : a ≠ x := by
        rintro rfl
        exact (List.nodup_cons.mp hnd).1 hx'
      rw [List.filter_cons]
      have hpa : (decide (a ≠ x) : Bool) = true := by simp [ha]
      rw [hpa]
      simp only [if_true]
      refine List.Perm.trans (List.Perm.swap a x _) ?_
      exact (ih (List.nodup_cons.mp hnd).2 hx').cons a

/-- Specification of one theme pass: the updated used set is a permutation
of the collected texts plus the old used set; collected texts are
duplicate-free, drawn from the input, and previously unused. -/
theorem collect_theme_spec (trigs : List String) :
    ∀ (kws : List KW) (used : List String),
      List.Perm (collect_theme trigs kws used).2
        (((collect_theme trigs kws used).1.map KW.text) ++ used)
      ∧ ((collect_theme trigs kws used).1.map KW.text).Nodup
      ∧ (∀ t ∈ (collect_theme trigs kws used).1.map KW.text,
          t ∈ kws.map KW.text ∧ t ∉ used) := by
  intro kws
  induction kws with
  | nil =>
    intro used
    refine ⟨List.Perm.refl used, List.nodup_nil, ?_⟩
    intro t ht
    exact absurd ht (by simp [collect_theme])
  | cons kw rest ih =>
    intro used
    rw [collect_theme]
    split_ifs with h1 h2
    · obtain ⟨ha, hb, hc⟩ := ih used
      refine ⟨ha, hb, ?_⟩
      intro t ht
      exact ⟨List.mem_cons_of_mem _ (hc t ht).1, (hc t ht).2⟩
    · obtain ⟨ha, hb, hc⟩ := ih (kw.text :: used)
      have hknu : kw.text ∉ used := by
        intro hmem
        rw [(contains_true_iff _ _).mpr hmem] at h1
        exact h1 rfl
      refine ⟨?_, ?_, ?_⟩
      · dsimp only
        rw [List.map_cons]
        exact ha.trans List.perm_middle
      · dsimp only
        rw [List.map_cons]
        refine List.nodup_cons.mpr ⟨?_, hb⟩
        intro hmem
        exact (hc _ hmem).2 (List.mem_cons_self _ _)
      · dsimp only
        rw [List.map_cons]
        intro t ht
        rcases List.mem_cons.mp ht with rfl | ht'
        · exact ⟨by rw [List.map_cons]; exact List.mem_cons_self _ _, hknu⟩
        · refine ⟨by rw [List.map_cons]; exact List.mem_cons_of_mem _ (hc t ht').1, ?_⟩
          intro hmem
          exact (hc t ht').2 (List.mem_cons_of_mem _ hmem)
    · obtain ⟨ha, hb, hc⟩ := ih used
      refine ⟨ha, hb, ?_⟩
      intro t ht
      exact ⟨List.mem_cons_of_mem _ (hc t ht).1, (hc t ht).2⟩

/-- Invariant of the theme loop: the final used set is duplicate-free, a
permutation of the texts placed in the produced sub-parent forest plus the
initial used set, and drawn from the input texts or the initial used set. -/
theorem themes_fold_spec (sorted : List KW) :
    ∀ (themes : List (String × List String)) (used : List String),
      used.Nodup →
      ((themes_fold sorted themes used).2).Nodup
      ∧ List.Perm (themes_fold sorted themes used).2
          (treeTextsList (themes_fold sorted themes used).1 ++ used)
      ∧ ∀ x ∈ (themes_fold sorted themes used).2,
          x ∈ sorted.map KW.text ∨ x ∈ used := by
  intro themes
  induction themes with
  | nil =>
    intro used hund
    simp only [themes_fold]
    rw [treeTextsList_nil, List.nil_append]
    exact ⟨hund, List.Perm.refl used, fun x hx => Or.inr hx⟩
  | cons th rest ih =>
    intro used hund
    obtain ⟨ca, cb, cc⟩ := collect_theme_spec th.2 sorted used
    have hc2nd : ((collect_theme th.2 sorted used).2).Nodup := by
      refine ca.symm.nodup (List.Nodup.append cb hund ?_)
      intro t ht1 ht2
      exact (cc t ht1).2 ht2
    obtain ⟨ra, rb, rc⟩ := ih ((collect_theme th.2 sorted used).2) hc2nd
    simp only [themes_fold]
    rcases hc1 : (collect_theme th.2 sorted used).1 with _ | ⟨h0, t0⟩
    · dsimp only
      have hcu : List.Perm (collect_theme th.2 sorted used).2 used := by
        have ca' := ca
        rw [hc1, List.map_nil, List.nil_append] at ca'
        exact ca'
      refine ⟨ra, ?_, ?_⟩
      · exact rb.trans (List.Perm.append_left _ hcu)
      · intro x hx
        rcases rc x hx with h | h
        · exact Or.inl h
        · exact Or.inr (hcu.mem_iff.mp h)
    · dsimp only
      refine ⟨ra, ?_, ?_⟩
      · rw [treeTextsList_cons, treeTexts_mk, treeTextsList_leaves]
        have ca' : List.Perm (collect_theme th.2 sorted used).2
            ((h0.text :: t0.map KW.text) ++ used) := by
          have h' := ca
          rw [hc1, List.map_cons] at h'
          exact h'
        refine rb.trans ((List.Perm.append_left _ ca').trans ?_)
        rw [← List.append_assoc]
        exact List.Perm.append_right used List.perm_append_comm
      · intro x hx
        rcases rc x hx with h | h
        · exact Or.inl h
        · rcases List.mem_append.mp (ca.mem_iff.mp h) with h2 | h2
          · exact Or.inl (cc x h2).1
          · exact Or.inr h2

theorem map_text_filter_ne (l : List KW) (x : String) :
    (l.filter (fun kw => kw.text ≠ x)).map KW.text
      = (l.map KW.text).filter (fun t => t ≠ x) :=
  map_text_filter l (fun t => decide (t ≠ x))

theorem map_text_filter_ncontains (l : List KW) (u : List String) :
    (l.filter (fun kw => !u.contains kw.text)).map KW.text
      = (l.map KW.text).filter (fun t => !u.contains t) :=
  map_text_filter l (fun t => !u.contains t)

/-- Theme bucketing is complete and duplicate-free: the texts of the
produced sub-parent forest are a permutation of the input keyword texts. -/
theorem create_sub_parents_perm (kws : List KW) (parent_text : String)
    (hnd : (kws.map KW.text).Nodup) :
    List.Perm (treeTextsList (create_sub_parents kws parent_text))
      (kws.map KW.text) := by
  rw [create_sub_parents]
  split_ifs with hemp
  · rw [List.isEmpty_iff] at hemp
    rw [hemp, treeTextsList_nil, List.map_nil]
  · have hps : List.Perm (sort_by_score_desc kws) kws := by
      rw [sort_by_score_desc]
      exact List.perm_insertionSort _ _
    have hmap : List.Perm ((sort_by_score_desc kws).map KW.text) (kws.map KW.text) :=
      hps.map _
    have hsnd : ((sort_by_score_desc kws).map KW.text).Nodup := hmap.symm.nodup hnd
    obtain ⟨fa, fb, fc⟩ := themes_fold_spec (sort_by_score_desc kws) THEMES []
      List.nodup_nil
    have fb' : List.Perm
        (treeTextsList (themes_fold (sort_by_score_desc kws) THEMES []).1)
        (themes_fold (sort_by_score_desc kws) THEMES []).2 := by
      have h := fb
      rw [List.append_nil] at h
      exact h.symm
    rw [treeTextsList_append, treeTextsList_leaves, map_text_filter_ncontains]
    refine (List.Perm.append_right _ fb').trans ?_
    have hu : List.Perm (themes_fold (sort_by_score_desc kws) THEMES []).2
        (((sort_by_score_desc kws).map KW.text).filter
          (fun t => (themes_fold (sort_by_score_desc kws) THEMES []).2.contains t)) := by
      rw [List.perm_ext_iff_of_nodup fa (hsnd.filter _)]
      intro x
      rw [List.mem_filter]
      constructor
      · intro hx
        rcases fc x hx with h | h
        · exact ⟨h, (contains_true_iff _ _).mpr hx⟩
        · exact absurd h (List.not_mem_nil x)
      · rintro ⟨-, hc⟩
        exact (contains_true_iff _ _).mp hc
    refine (List.Perm.append_right _ hu).trans ?_
    exact (List.filter_append_perm _ _).trans hmap

/-- The keys of the frequency map form a sublist of the (deduplicated)
candidate list. -/
theorem filterMap_freq_fst_sublist (tl : String) (l : List String) :
    List.Sublist ((l.filterMap (fun c => if 0 < countSubstr tl c
        then some (c, countSubstr tl c) else none)).map Prod.fst) l := by
  induction l with
  | nil => simp
  | cons a t ih =>
    rw [List.filterMap_cons]
    by_cases h : 0 < countSubstr tl a
    · rw [if_pos h]
      dsimp only
      rw [List.map_cons]
      exact ih.cons₂ a
    · rw [if_neg h]
      dsimp only
      exact ih.cons a

/-- The texts of the scored entries form a sublist of the frequency-map
keys. -/
theorem filterMap_scored_texts_sublist (pw : Nat → ℚ) (tl : Nat)
    (title h1_h2_text url_joined : String) (l : List (String × Nat)) :
    List.Sublist ((l.filterMap (score_entry pw tl title h1_h2_text url_joined)).map
      KW.text) (l.map Prod.fst) := by
  induction l with
  | nil => simp
  | cons cf t ih =>
    obtain ⟨c, f⟩ := cf
    rw [List.filterMap_cons, List.map_cons]
    rcases hse : score_entry pw tl title h1_h2_text url_joined (c, f) with _ | k
    · dsimp only
      exact ih.cons c
    · dsimp only
      rw [List.map_cons]
      have hk : k.text = c := by
        rw [(score_entry_some hse).2.2.2]
      rw [hk]
      exact ih.cons₂ c

/-- The scorer never emits two records with the same text. -/
theorem score_keywords_texts_nodup (pw : Nat → ℚ) (cands : List String)
    (text title h1_h2_text : String) (url_tokens : List String) :
    ((score_keywords pw cands text title h1_h2_text url_tokens).map KW.text).Nodup := by
  rw [score_keywords, sort_by_score_desc]
  have h1 := (filterMap_freq_fst_sublist (lowerStr text) (counterKeys cands)).nodup
    (counterKeys_nodup cands)
  have h2 := (filterMap_scored_texts_sublist pw ((wordsOf (lowerStr text)).length)
    title h1_h2_text (String.intercalate " " url_tokens) _).nodup h1
  exact ((List.perm_insertionSort byScoreDesc _).map KW.text).symm.nodup h2

/-- The top-30 keyword texts are pairwise distinct. -/
theorem top_texts_nodup (tok : String → List String) (pw : Nat → ℚ)
    (dedup : List String → List String) (sig : Signals) (readable_text : String) :
    ((top_of tok pw dedup sig readable_text).map KW.text).Nodup := by
  have h1 : ((scored_of tok pw dedup sig readable_text).map KW.text).Nodup := by
    rw [scored_of]
    exact score_keywords_texts_nodup pw _ _ _ _ _
  have h2 : List.Sublist ((top_of tok pw dedup sig readable_text).map KW.text)
      ((scored_of tok pw dedup sig readable_text).map KW.text) := by
    rw [top_of, validate_keyword_quality]
    exact ((List.take_sublist 30 _).trans (List.filter_sublist _)).map KW.text
  exact h2.nodup h1

/-- The tree produced by `build_result`. -/
theorem build_result_tree (tok : String → List String)
    (url final_url language : String) (nCand nScored nValid : Nat)
    (top_keywords : List KW) (parent : PInfo) (other_keywords : List KW) :
    (build_result tok url final_url language nCand nScored nValid top_keywords
        parent other_keywords).tree
      = TNode.mk url 0 [TNode.mk parent.text parent.score
          (create_sub_parents other_keywords parent.text)] := rfl

/-- The keyword texts of a `build_result` are the top-keyword texts. -/
theorem build_result_keyword_texts (tok : String → List String)
    (url final_url language : String) (nCand nScored nValid : Nat)
    (top_keywords : List KW) (parent : PInfo) (other_keywords : List KW) :
    (build_result tok url final_url language nCand nScored nValid top_keywords
        parent other_keywords).keywords.map KwOut.text
      = top_keywords.map KW.text := by
  rw [build_result_keywords, List.map_map]
  rfl

/-- C2: in every result with a non-null parent, the root's single child is
the parent node, and the texts appearing in that subtree are exactly the
post-validation top-30 keyword texts, each exactly once (the text list of
the subtree is a permutation of the duplicate-free top-30 text list). -/
theorem claim_C2 (tok : String → List String) (pw : Nat → ℚ)
    (dedup : List String → List String) (detect : String → String)
    (sig : Signals) (readable_text url final_url lang_guess : String) :
    ∀ p, (extract_keywords_from_html tok pw dedup detect sig readable_text
        url final_url lang_guess).parent = some p →
    ∃ pn, (extract_keywords_from_html tok pw dedup detect sig readable_text
        url final_url lang_guess).tree = TNode.mk url 0 [pn]
      ∧ pn.text = p.text
      ∧ ((extract_keywords_from_html tok pw dedup detect sig readable_text
          url final_url lang_guess).keywords.map KwOut.text).Nodup
      ∧ List.Perm (treeTexts pn)
          ((extract_keywords_from_html tok pw dedup detect sig readable_text
            url final_url lang_guess).keywords.map KwOut.text) := by
  intro p hp
  rcases extract_shape tok pw dedup detect sig readable_text url final_url
      lang_guess with ⟨-, hemp⟩ | ⟨t0, rest, htop, -, heq⟩ | ⟨q, hcp, heq⟩
  · rw [hemp] at hp
    exact absurd hp (by simp)
  · refine ⟨TNode.mk t0.text t0.score (create_sub_parents rest t0.text),
      ?_, ?_, ?_, ?_⟩
    · rw [heq, build_result_tree]
    · rw [heq, build_result_parent] at hp
      injection hp with hp'
      exact congrArg KwOut.text hp'
    · rw [heq, build_result_keyword_texts]
      exact top_texts_nodup tok pw dedup sig readable_text
    · rw [heq, build_result_keyword_texts, htop, treeTexts_mk, List.map_cons]
      refine List.Perm.cons t0.text ?_
      apply create_sub_parents_perm
      have h := top_texts_nodup tok pw dedup sig readable_text
      rw [htop, List.map_cons] at h
      exact (List.nodup_cons.mp h).2
  · refine ⟨TNode.mk q.text q.score (create_sub_parents
      ((top_of tok pw dedup sig readable_text).filter
        (fun kw => kw.text ≠ q.text)) q.text), ?_, ?_, ?_, ?_⟩
    · rw [heq, build_result_tree]
    · rw [heq, build_result_parent] at hp
      injection hp with hp'
      exact congrArg KwOut.text hp'
    · rw [heq, build_result_keyword_texts]
      exact top_texts_nodup tok pw dedup sig readable_text
    · rw [heq, build_result_keyword_texts, treeTexts_mk]
      have hnd := top_texts_nodup tok pw dedup sig readable_text
      have hmem : q.text ∈ (top_of tok pw dedup sig readable_text).map KW.text :=
        List.mem_map_of_mem KW.text (choose_parent_some_mem hcp).1
      have hndo : (((top_of tok pw dedup sig readable_text).filter
          (fun kw => kw.text ≠ q.text)).map KW.text).Nodup := by
        rw [map_text_filter_ne]
        exact hnd.filter _
      have hsub := create_sub_parents_perm ((top_of tok pw dedup sig
        readable_text).filter (fun kw => kw.text ≠ q.text)) q.text hndo
      rw [map_text_filter_ne] at hsub
      exact (List.Perm.cons q.text hsub).trans (cons_filter_ne_perm hnd hmem)

/-- Witness for C2: on the concrete symmetric page, the returned tree has
the degraded parent `alpha` as the root's single child and its subtree
texts are exactly the top-keyword texts. -/
theorem claim_C2_witness :
    ∃ pn, (extract_keywords_from_html simpleTok pw08 dedupD detectEn c9Sig
        c9Body "u" "" "en").tree = TNode.mk "u" 0 [pn]
      ∧ pn.text = "alpha"
      ∧ ((extract_keywords_from_html simpleTok pw08 dedupD detectEn c9Sig
          c9Body "u" "" "en").keywords.map KwOut.text).Nodup
      ∧ List.Perm (treeTexts pn)
          ((extract_keywords_from_html simpleTok pw08 dedupD detectEn c9Sig
            c9Body "u" "" "en").keywords.map KwOut.text) :=
  claim_C2 simpleTok pw08 dedupD detectEn c9Sig c9Body "u" "" "en"
    ⟨"alpha", 111/50, 2, "informational"⟩ c9_parent_eval

end JSCrawl
